import Mathlib

/-!
Verification of the node-amf repository (AMF0/AMF3 codec with Remoting
envelope) against its natural-language specification.

Shallow embedding conventions:
* JavaScript strings are represented by their UTF-8 byte sequences
  (`JsStr := List Nat`); string equality corresponds to byte equality.
* Buffers are `List Nat` of bytes.  Primitive buffer reads model in-bounds
  executions (`List.getD _ 0`); out-of-range buffer accesses (which throw
  RangeError in node) are outside the scope of every claim below.
* The JS heap is modelled explicitly: complex values (objects, arrays,
  dates, byte arrays, XML wrappers) live in a `List HNode` heap and are
  denoted by `HVal.ref index`.  JS identity (`===`) is heap-index equality,
  which is what the AMF3 reference tables compare.
* JS numbers are split into `JsNum.intg` (an f64 holding an exact integer)
  and `JsNum.dbl` (any other f64, kept as its 64-bit pattern).  The codec
  only ever branches on `Number.isInteger` plus range checks, which this
  split captures; decoded doubles are kept as raw patterns.
* Unbounded loops take a fuel argument; exhausting fuel is the distinct
  error `JErr.outOfFuel`, never silently conflated with codec errors.
-/

namespace NodeAmf

/-- UTF-8 byte sequence standing for a JavaScript string. -/
abbrev JsStr := List Nat

/-- Bytes of the JS property name used by the codec for class names. -/
def keyClassName : JsStr := [95, 95, 99, 108, 97, 115, 115, 78, 97, 109, 101, 95, 95]

/-- Bytes of the JS property name marking externalizable objects. -/
def keyExternalizable : JsStr :=
  [95, 95, 101, 120, 116, 101, 114, 110, 97, 108, 105, 122, 97, 98, 108, 101, 95, 95]

/-- Bytes of the `__amf3__` tag checked by the AMF0 writer. -/
def keyAmf3 : JsStr := [95, 95, 97, 109, 102, 51, 95, 95]

/-- Bytes of the string "undefined", the JS property key produced when an
undefined value is coerced to a key. -/
def keyUndefinedStr : JsStr := [117, 110, 100, 101, 102, 105, 110, 101, 100]

/-- JavaScript number: an f64 that is an exact integer, or any other f64
kept as its 64-bit pattern. -/
inductive JsNum where
  | intg (n : Int)
  | dbl (bits : Nat)
deriving DecidableEq, Repr

/-- JS ToInt32 (the semantics of `x >> 0` and of coercion before 32-bit
bitwise operators). -/
def toInt32 (n : Nat) : Int :=
  let m := n % 4294967296
  if m < 2147483648 then (m : Int) else (m : Int) - 4294967296

/-- Two-complement 32-bit pattern of an integer (coercion applied by JS
bitwise operators to their operands). -/
def int32Bits (n : Int) : Nat :=
  (n % (4294967296 : Int)).toNat

/-- Heap value: primitives are immediate, complex values are heap indices.
`endObj` is the module-level END_OBJECT sentinel of lib/read.js and
lib/write.js (a distinguished identity). -/
inductive HVal where
  | undef
  | null
  | bool (b : Bool)
  | num (n : JsNum)
  | str (s : JsStr)
  | ref (i : Nat)
  | endObj
deriving DecidableEq, Repr

/-- Heap node for a complex JS value. -/
inductive HNode where
  | obj (props : List (JsStr × HVal))
  | arr (dense : List HVal) (assoc : List (JsStr × HVal))
  | date (ms : JsNum)
  | bytes (data : List Nat)
  | xml (isDoc : Bool) (s : JsStr)
deriving DecidableEq, Repr

/-- Errors thrown by the codec, plus the fuel-exhaustion artifact of the
embedding. -/
inductive JErr where
  | invalidStringRef (i : Nat)
  | invalidDateRef (i : Nat)
  | invalidArrayRef (i : Nat)
  | invalidObjectRef (i : Nat)
  | invalidTraitRef (i : Nat)
  | invalidXmlRef (i : Nat)
  | invalidByteArrayRef (i : Nat)
  | integerOutOfRange (n : Int)
  | u29OutOfRange (n : Nat)
  | amf0NotImplemented (t : Nat)
  | amf3NotImplemented (t : Nat)
  | unknownAmf3Marker (t : Nat)
  | externalizableNotImplemented (className : JsStr)
  | assertFail
  | typeError
  | outOfFuel
deriving DecidableEq, Repr

deriving instance DecidableEq for Except

/-- First index of `x` in `l` under decidable equality (the JS `===` scan
loops and `indexOf` used by the reference tables). -/
def jsIndexOf {α : Type} [DecidableEq α] (l : List α) (x : α) : Option Nat :=
  match l with
  | [] => none
  | a :: rest =>
    if a = x then some 0
    else match jsIndexOf rest x with
      | some i => some (i + 1)
      | none => none

/-- JS property write `o[k] = v` on an association list: overwrite in place
if the key exists, else append (insertion order preserved). -/
def setAssoc (l : List (JsStr × HVal)) (k : JsStr) (v : HVal) : List (JsStr × HVal) :=
  match l with
  | [] => [(k, v)]
  | p :: rest => if p.1 = k then (k, v) :: rest else p :: setAssoc rest k v

/-- JS property read `o[k]` on an association list (undefined when absent). -/
def jsGetProp (l : List (JsStr × HVal)) (k : JsStr) : HVal :=
  match l.find? (fun p => p.1 = k) with
  | some p => p.2
  | none => HVal.undef

/-- Allocate a heap node, returning the new heap and the node index. -/
def halloc (h : List HNode) (n : HNode) : List HNode × Nat :=
  (h ++ [n], h.length)

/-- Property write into the heap object at index `i`. -/
def setObjPropH (h : List HNode) (i : Nat) (k : JsStr) (v : HVal) : List HNode :=
  match h.get? i with
  | some (.obj props) => h.set i (.obj (setAssoc props k v))
  | some (.arr dense assoc) => h.set i (.arr dense (setAssoc assoc k v))
  | _ => h

/-- `array.push(v)` on the heap array at index `i`. -/
def pushDenseH (h : List HNode) (i : Nat) (v : HVal) : List HNode :=
  match h.get? i with
  | some (.arr dense assoc) => h.set i (.arr (dense ++ [v]) assoc)
  | _ => h

/-- Big-endian base-256 value of a byte list. -/
def beValue (bs : List Nat) : Nat :=
  bs.foldl (fun acc b => acc * 256 + b) 0

/-- Read `n` big-endian bytes starting at `off`. -/
def readBE (buf : List Nat) (off n : Nat) : Nat :=
  beValue ((buf.drop off).take n)

/-- Eight big-endian bytes of a 64-bit pattern. -/
def beBytes8 (bits : Nat) : List Nat :=
  [ (bits >>> 56) &&& 255, (bits >>> 48) &&& 255, (bits >>> 40) &&& 255,
    (bits >>> 32) &&& 255, (bits >>> 24) &&& 255, (bits >>> 16) &&& 255,
    (bits >>> 8) &&& 255, bits &&& 255 ]

/-- IEEE-754 binary64 pattern of an exact integer (round half to even for
magnitudes above 2^53; exact below).  Used where the source hands an
integer-valued number to `writeDoubleBE`. -/
def f64OfInt (n : Int) : Nat :=
  if n = 0 then 0
  else
    let s : Nat := if n < 0 then 1 else 0
    let m : Nat := n.natAbs
    let e : Nat := Nat.log2 m
    if e ≤ 52 then
      (s <<< 63) ||| ((1023 + e) <<< 52) ||| ((m <<< (52 - e)) % (2 ^ 52))
    else
      let sh := e - 52
      let q := m >>> sh
      let r := m % (2 ^ sh)
      let half := 2 ^ (sh - 1)
      let q2 := if half < r ∨ (r = half ∧ q % 2 = 1) then q + 1 else q
      let q3 := if q2 = 2 ^ 53 then 2 ^ 52 else q2
      let e2 := if q2 = 2 ^ 53 then e + 1 else e
      if 2047 ≤ 1023 + e2 then (s <<< 63) ||| (2047 <<< 52)
      else (s <<< 63) ||| ((1023 + e2) <<< 52) ||| (q3 % (2 ^ 52))

/-- Bytes produced by `writeDoubleBE` for a JS number. -/
def f64Bytes (v : JsNum) : List Nat :=
  match v with
  | .dbl bits => beBytes8 bits
  | .intg n => beBytes8 (f64OfInt n)

/-- Result of `readDoubleBE`: the raw 64-bit pattern.  The embedding keeps
decoded doubles as opaque patterns (no claim compares a decoded double with
an integer-valued number). -/
def readF64 (buf : List Nat) (off : Nat) : JsNum :=
  .dbl (readBE buf off 8)

/-- ASCII decimal digit test. -/
def isDigitB (b : Nat) : Bool := 48 ≤ b && b ≤ 57

/-- ASCII hex digit value. -/
def hexVal (b : Nat) : Option Nat :=
  if 48 ≤ b && b ≤ 57 then some (b - 48)
  else if 97 ≤ b && b ≤ 102 then some (b - 87)
  else if 65 ≤ b && b ≤ 70 then some (b - 55)
  else none

private def digitsVal (base : Nat) (dv : Nat → Option Nat) : List Nat → Nat → Nat × Bool
  | [], acc => (acc, false)
  | b :: rest, acc =>
    match dv b with
    | some d =>
      let r := digitsVal base dv rest (acc * base + d)
      (r.1, true)
    | none => (acc, false)

private def digitsValAny (base : Nat) (dv : Nat → Option Nat) (l : List Nat) : Option Nat :=
  match l with
  | [] => none
  | b :: rest =>
    match dv b with
    | some d =>
      let r := digitsVal base dv rest d
      some r.1
    | none => none

/-- JS `parseInt(s)` (radix unspecified): skip ASCII whitespace, optional
sign, optional 0x/0X hex prefix, then the maximal digit run; `none` models
NaN. -/
def jsParseInt (s : JsStr) : Option Int :=
  let t := s.dropWhile (fun b => b = 32 || b = 9 || b = 10 || b = 11 || b = 12 || b = 13)
  let signAndRest : Bool × JsStr :=
    match t with
    | 43 :: rest => (false, rest)
    | 45 :: rest => (true, rest)
    | _ => (false, t)
  let neg := signAndRest.1
  let body := signAndRest.2
  let mag : Option Nat :=
    match body with
    | 48 :: 120 :: rest => digitsValAny 16 hexVal rest
    | 48 :: 88 :: rest => digitsValAny 16 hexVal rest
    | _ => digitsValAny 10 (fun b => if isDigitB b then some (b - 48) else none) body
  match mag with
  | some m => some (if neg then -(m : Int) else (m : Int))
  | none => none

/-- The AMF3 array writer filter `parseInt(key) >= 0 && parseInt(key) < length`
(NaN comparisons are false). -/
def parseIntInRange (k : JsStr) (len : Nat) : Bool :=
  match jsParseInt k with
  | some v => decide (0 ≤ v ∧ v < (len : Int))
  | none => false

/-- Strict canonical decimal reading of a key (used by the scaffold encoder
array filter, where it is equivalent to `String(+k >>> 0) === k` with the
result below the dense length). -/
def strictDecNat (k : JsStr) : Option Nat :=
  match k with
  | [] => none
  | [b] => if isDigitB b then some (b - 48) else none
  | b :: rest =>
    if b = 48 then none
    else if isDigitB b then
      if rest.all (fun c => isDigitB c) then
        some (rest.foldl (fun acc c => acc * 10 + (c - 48)) (b - 48))
      else none
    else none

/-!  AMF marker constants.

Modelled from the spec: lib/constants.js is not under src/, only its
requires are; the AMF3 values are pinned by the AMF3_MARKER table in the
decoder scaffold, the spec §4.3/§4.4 marker assignments, and the byte-level
expectations in test/amf3.js. -/

def a0Number : Nat := 0
def a0Boolean : Nat := 1
def a0String : Nat := 2
def a0Object : Nat := 3
def a0Null : Nat := 5
def a0Undefined : Nat := 6
def a0Reference : Nat := 7
def a0ECMAArray : Nat := 8
def a0ObjectEnd : Nat := 9
def a0StrictArray : Nat := 10
def a0Date : Nat := 11
def a0TypedObject : Nat := 16
def a0AvmPlus : Nat := 17

def a3Undefined : Nat := 0
def a3Null : Nat := 1
def a3False : Nat := 2
def a3True : Nat := 3
def a3Integer : Nat := 4
def a3Double : Nat := 5
def a3String : Nat := 6
def a3XML : Nat := 7
def a3Date : Nat := 8
def a3Array : Nat := 9
def a3Object : Nat := 10
def a3AvmPlusXml : Nat := 11
def a3ByteArray : Nat := 12

/-!  lib/utils/u29.js -/

/-- `readU29(buffer, offsetRef)` from lib/utils/u29.js: value and advanced
offset. -/
def readU29 (buf : List Nat) (off : Nat) : Nat × Nat :=
  let b0 := buf.getD off 0
  if b0 < 128 then (b0, off + 1)
  else
    let v1 := (b0 &&& 0x7F) <<< 7
    let b1 := buf.getD (off + 1) 0
    if b1 < 128 then (v1 ||| b1, off + 2)
    else
      let v2 := (v1 ||| (b1 &&& 0x7F)) <<< 7
      let b2 := buf.getD (off + 2) 0
      if b2 < 128 then (v2 ||| b2, off + 3)
      else
        let v3 := (v2 ||| (b2 &&& 0x7F)) <<< 8
        let b3 := buf.getD (off + 3) 0
        (v3 ||| b3, off + 4)

/-- Number of bytes the U29 decoder consumes at `off` (first byte with a
clear high bit ends the sequence, capped at four bytes). -/
def u29Size (buf : List Nat) (off : Nat) : Nat :=
  if buf.getD off 0 < 128 then 1
  else if buf.getD (off + 1) 0 < 128 then 2
  else if buf.getD (off + 2) 0 < 128 then 3
  else 4

/-!  lib/write.js, AMF3 half.

The source file contains two textually near-identical copies of every AMF3
writer; in JavaScript the second function declaration wins, so the
embedding below follows the second copy of each writer (the one whose
object writer emits trait names through the ordinary reference-aware
string writer). -/

/-- Byte sequence emitted by `writeAmf3Integer` for an in-range value
(the four branch bodies of the source, bytes only). -/
def u29W (n : Nat) : List Nat :=
  if n < 0x80 then [n]
  else if n < 0x4000 then
    [0x80 ||| ((n >>> 7) &&& 0x7F), n &&& 0x7F]
  else if n < 0x200000 then
    [0x80 ||| ((n >>> 14) &&& 0x7F), 0x80 ||| ((n >>> 7) &&& 0x7F), n &&& 0x7F]
  else
    [0x80 ||| ((n >>> 22) &&& 0x7F), 0x80 ||| ((n >>> 15) &&& 0x7F),
     0x80 ||| ((n >>> 8) &&& 0x7F), n &&& 0xFF]

/-- Writer state of lib/write.js in AMF3 mode: bytes written so far and the
three reference tables hung off `info` (the trait table is initialized by
the source but never consulted by the writer). -/
structure WSt where
  out : List Nat
  strRefs : List JsStr
  objRefs : List Nat
  traitRefs : List Unit
deriving DecidableEq, Repr

/-- Initial writer state. -/
def initW : WSt := ⟨[], [], [], []⟩

/-- Append bytes to the writer output. -/
def emit (st : WSt) (bs : List Nat) : WSt :=
  { st with out := st.out ++ bs }

/-- `writeAmf3Integer(buffer, value, info)`: throws for values outside
[0, 2^29), otherwise emits one to four bytes. -/
def writeAmf3IntegerE (n : Int) (st : WSt) : Except JErr WSt :=
  if n < 0 ∨ 0x20000000 ≤ n then .error (.integerOutOfRange n)
  else .ok (emit st (u29W n.toNat))

/-- `writeAmf3String(buffer, value, info)` (second copy): reference lookup,
empty-string special case, else push to the table and emit header plus
UTF-8 bytes.  No type marker is emitted here; the marker comes only from
the `writeAmf3` dispatcher. -/
def writeAmf3StringFn (s : JsStr) (st : WSt) : Except JErr WSt :=
  match jsIndexOf st.strRefs s with
  | some i => writeAmf3IntegerE (((i <<< 1 : Nat) : Int)) st
  | none =>
    if s = [] then writeAmf3IntegerE 1 st
    else
      let st1 := { st with strRefs := st.strRefs ++ [s] }
      match writeAmf3IntegerE (((s.length <<< 1) ||| 1 : Nat) : Int) st1 with
      | .error e => .error e
      | .ok st2 => .ok (emit st2 s)

/-- `writeAmf3Double`: eight big-endian bytes. -/
def writeAmf3DoubleFn (v : JsNum) (st : WSt) : Except JErr WSt :=
  .ok (emit st (f64Bytes v))

/-- `writeAmf3Date` (second copy): object-reference lookup, else push and
emit header 1 plus `value.getTime()` as a big-endian double. -/
def writeAmf3DateFn (ms : JsNum) (i : Nat) (st : WSt) : Except JErr WSt :=
  match jsIndexOf st.objRefs i with
  | some j => writeAmf3IntegerE (((j <<< 1 : Nat) : Int)) st
  | none =>
    let st1 := { st with objRefs := st.objRefs ++ [i] }
    match writeAmf3IntegerE 1 st1 with
    | .error e => .error e
    | .ok st2 => .ok (emit st2 (f64Bytes ms))

/-- `writeAmf3XML` (second copy): object-reference lookup, else push and
emit inline length header plus the XML text bytes. -/
def writeAmf3XMLFn (s : JsStr) (i : Nat) (st : WSt) : Except JErr WSt :=
  match jsIndexOf st.objRefs i with
  | some j => writeAmf3IntegerE (((j <<< 1 : Nat) : Int)) st
  | none =>
    let st1 := { st with objRefs := st.objRefs ++ [i] }
    match writeAmf3IntegerE (((s.length <<< 1) ||| 1 : Nat) : Int) st1 with
    | .error e => .error e
    | .ok st2 => .ok (emit st2 s)

/-- `writeAmf3ByteArray` (second copy): object-reference lookup, else push
and emit inline length header plus the raw bytes. -/
def writeAmf3ByteArrayFn (data : List Nat) (i : Nat) (st : WSt) : Except JErr WSt :=
  match jsIndexOf st.objRefs i with
  | some j => writeAmf3IntegerE (((j <<< 1 : Nat) : Int)) st
  | none =>
    let st1 := { st with objRefs := st.objRefs ++ [i] }
    match writeAmf3IntegerE (((data.length <<< 1) ||| 1 : Nat) : Int) st1 with
    | .error e => .error e
    | .ok st2 => .ok (emit st2 data)

/-- `getTypeAmf3(value, info)`: marker selection for AMF3 serialization. -/
def getTypeAmf3 (heap : List HNode) (v : HVal) : Except JErr Nat :=
  match v with
  | .null => .ok a3Null
  | .undef => .ok a3Undefined
  | .bool b => .ok (if b then a3True else a3False)
  | .num (.intg n) =>
    if -268435456 ≤ n ∧ n ≤ 268435455 then .ok a3Integer else .ok a3Double
  | .num (.dbl _) => .ok a3Double
  | .str _ => .ok a3String
  | .ref i =>
    match heap.get? i with
    | some (.date _) => .ok a3Date
    | some (.bytes _) => .ok a3ByteArray
    | some (.arr _ _) => .ok a3Array
    | some (.xml isDoc _) => .ok (if isDoc then a3AvmPlusXml else a3XML)
    | some (.obj _) => .ok a3Object
    | none => .error .typeError
  | .endObj => .error .typeError

/-- Property-name loop of `writeAmf3Object`: each name goes through the
string writer (reference-or-length header, no marker byte). -/
def writePropNames (names : List JsStr) (st : WSt) : Except JErr WSt :=
  match names with
  | [] => .ok st
  | k :: rest =>
    match writeAmf3StringFn k st with
    | .error e => .error e
    | .ok st1 => writePropNames rest st1

mutual

/-- `writeAmf3(buffer, value, info)` (dispatcher): emits the marker byte
then the per-type body. -/
def writeAmf3 : Nat → List HNode → HVal → WSt → Except JErr WSt
  | 0, _, _, _ => .error .outOfFuel
  | f + 1, heap, v, st =>
    match getTypeAmf3 heap v with
    | .error e => .error e
    | .ok t =>
      let st := emit st [t]
      if t = a3Undefined ∨ t = a3Null ∨ t = a3False ∨ t = a3True then .ok st
      else if t = a3Integer then
        match v with
        | .num (.intg n) => writeAmf3IntegerE n st
        | _ => .error .typeError
      else if t = a3Double then
        match v with
        | .num n => writeAmf3DoubleFn n st
        | _ => .error .typeError
      else if t = a3String then
        match v with
        | .str s => writeAmf3StringFn s st
        | _ => .error .typeError
      else if t = a3XML ∨ t = a3AvmPlusXml then
        match v with
        | .ref i =>
          match heap.get? i with
          | some (.xml _ s) => writeAmf3XMLFn s i st
          | _ => .error .typeError
        | _ => .error .typeError
      else if t = a3Date then
        match v with
        | .ref i =>
          match heap.get? i with
          | some (.date ms) => writeAmf3DateFn ms i st
          | _ => .error .typeError
        | _ => .error .typeError
      else if t = a3Array then
        match v with
        | .ref i => writeAmf3Array f heap i st
        | _ => .error .typeError
      else if t = a3Object then
        match v with
        | .ref i => writeAmf3Object f heap i st
        | _ => .error .typeError
      else if t = a3ByteArray then
        match v with
        | .ref i =>
          match heap.get? i with
          | some (.bytes data) => writeAmf3ByteArrayFn data i st
          | _ => .error .typeError
        | _ => .error .typeError
      else .error (.amf3NotImplemented t)

termination_by structural a0 _ _ _ => a0

/-- `writeAmf3Array` (second copy): reference lookup, push, length header,
associative pairs (keys via the reference-aware string writer), empty
string terminator, then dense elements. -/
def writeAmf3Array : Nat → List HNode → Nat → WSt → Except JErr WSt
  | 0, _, _, _ => .error .outOfFuel
  | f + 1, heap, i, st =>
    match jsIndexOf st.objRefs i with
    | some j => writeAmf3IntegerE (((j <<< 1 : Nat) : Int)) st
    | none =>
      match heap.get? i with
      | some (.arr dense assoc) =>
        let st1 := { st with objRefs := st.objRefs ++ [i] }
        let len := dense.length
        let associativeKeys := (assoc.map Prod.fst).filter (fun k => !(parseIntInRange k len))
        match writeAmf3IntegerE (((len <<< 1) ||| 1 : Nat) : Int) st1 with
        | .error e => .error e
        | .ok st2 =>
          match writeAssocPairs f heap assoc associativeKeys st2 with
          | .error e => .error e
          | .ok st3 =>
            match writeAmf3StringFn [] st3 with
            | .error e => .error e
            | .ok st4 => writeDenseElems f heap dense len 0 st4
      | _ => .error .typeError

termination_by structural a0 _ _ _ => a0

/-- Associative-pair loop of `writeAmf3Array`: key (string writer, no
marker) then value for each associative key. -/
def writeAssocPairs : Nat → List HNode → List (JsStr × HVal) → List JsStr → WSt →
    Except JErr WSt
  | 0, _, _, _, _ => .error .outOfFuel
  | _ + 1, _, _, [], st => .ok st
  | f + 1, heap, assoc, k :: rest, st =>
    match writeAmf3StringFn k st with
    | .error e => .error e
    | .ok st1 =>
      match writeAmf3 f heap (jsGetProp assoc k) st1 with
      | .error e => .error e
      | .ok st2 => writeAssocPairs f heap assoc rest st2

termination_by structural a0 _ _ _ _ => a0

/-- Dense-element loop of `writeAmf3Array`: `value[idx]` for idx below the
array length (holes read as undefined). -/
def writeDenseElems : Nat → List HNode → List HVal → Nat → Nat → WSt → Except JErr WSt
  | 0, _, _, _, _, _ => .error .outOfFuel
  | f + 1, heap, dense, len, idx, st =>
    if idx < len then
      match writeAmf3 f heap (dense.getD idx .undef) st with
      | .error e => .error e
      | .ok st1 => writeDenseElems f heap dense len (idx + 1) st1
    else .ok st

termination_by structural a0 _ _ _ _ _ => a0

/-- `writeAmf3Object` (second copy): reference lookup, push, trait header
from `__className__` and `__externalizable__`, class name and property
names through the reference-aware string writer, property values, then the
empty-string dynamic terminator. -/
def writeAmf3Object : Nat → List HNode → Nat → WSt → Except JErr WSt
  | 0, _, _, _ => .error .outOfFuel
  | f + 1, heap, i, st =>
    match jsIndexOf st.objRefs i with
    | some j => writeAmf3IntegerE (((j <<< 1 : Nat) : Int)) st
    | none =>
      match heap.get? i with
      | some (.obj props) =>
        let st1 := { st with objRefs := st.objRefs ++ [i] }
        let className : JsStr :=
          match jsGetProp props keyClassName with
          | .str s => s
          | _ => []
        let isDynamic := true
        let isExternalizable := jsGetProp props keyExternalizable = .bool true
        let propertyNames : List JsStr :=
          if isExternalizable then []
          else (props.map Prod.fst).filter
            (fun k => k ≠ keyClassName ∧ k ≠ keyExternalizable)
        let header : Nat :=
          if isExternalizable then 0x03 ||| (1 <<< 2)
          else 0x03 ||| (if isDynamic then 1 <<< 3 else 0) ||| (propertyNames.length <<< 4)
        match writeAmf3IntegerE (header : Int) st1 with
        | .error e => .error e
        | .ok st2 =>
          match writeAmf3StringFn className st2 with
          | .error e => .error e
          | .ok st3 =>
            if isExternalizable then .ok st3
            else
              match writePropNames propertyNames st3 with
              | .error e => .error e
              | .ok st4 =>
                match writePropValues f heap props propertyNames st4 with
                | .error e => .error e
                | .ok st5 =>
                  if isDynamic then writeAmf3StringFn [] st5 else .ok st5
      | _ => .error .typeError

termination_by structural a0 _ _ _ => a0

/-- Property-value loop of `writeAmf3Object`. -/
def writePropValues : Nat → List HNode → List (JsStr × HVal) → List JsStr → WSt →
    Except JErr WSt
  | 0, _, _, _, _ => .error .outOfFuel
  | _ + 1, _, _, [], st => .ok st
  | f + 1, heap, props, k :: rest, st =>
    match writeAmf3 f heap (jsGetProp props k) st with
    | .error e => .error e
    | .ok st1 => writePropValues f heap props rest st1

termination_by structural a0 _ _ _ _ => a0
end

/-!  lib/read.js -/

/-- Trait descriptor stored by `readAmf3Object` in the trait table. -/
structure RTrait where
  className : JsStr
  propertyNames : List JsStr
  isExternalizable : Bool
  isDynamic : Bool
deriving DecidableEq, Repr

/-- Reader state of lib/read.js: cursor, active version, the decoded-value
heap, the AMF0 reference list, and the three AMF3 tables hung off `info`.
The `byteLength` accounting of the source only synchronizes its temp
objects and is subsumed by threading one state. -/
structure RSt where
  offset : Nat
  version : Nat
  heap : List HNode
  references : List Nat
  strRefs : List JsStr
  objRefs : List Nat
  traitRefs : List RTrait
deriving DecidableEq, Repr

/-- Fresh reader state at an offset and version. -/
def initRSt (off ver : Nat) : RSt :=
  ⟨off, ver, [], [], [], [], []⟩

/-- Advance the reader cursor. -/
def bump (st : RSt) (n : Nat) : RSt :=
  { st with offset := st.offset + n }

/-- `readAmf3Integer(buffer, info)`: hand-rolled U29 accumulation, one to
four bytes, no sign extension.  All intermediate values stay below 2^29,
so plain natural arithmetic coincides with the 32-bit JS operators. -/
def readAmf3Integer (buf : List Nat) (st : RSt) : Nat × RSt :=
  let b0 := buf.getD st.offset 0
  let st1 := bump st 1
  if b0 < 128 then (b0, st1)
  else
    let r1 := (b0 &&& 0x7F) <<< 7
    let b1 := buf.getD st1.offset 0
    let st2 := bump st1 1
    if b1 < 128 then (r1 ||| b1, st2)
    else
      let r2 := (r1 ||| (b1 &&& 0x7F)) <<< 7
      let b2 := buf.getD st2.offset 0
      let st3 := bump st2 1
      if b2 < 128 then (r2 ||| b2, st3)
      else
        let r3 := (r2 ||| (b2 &&& 0x7F)) <<< 8
        let b3 := buf.getD st3.offset 0
        let st4 := bump st3 1
        (r3 ||| b3, st4)

/-- `readAmf3Double`. -/
def readAmf3Double (buf : List Nat) (st : RSt) : JsNum × RSt :=
  (readF64 buf st.offset, bump st 8)

/-- `readAmf3String`: reference (bounds-checked, hard error) or inline;
inline non-empty strings are appended to the string table. -/
def readAmf3String (buf : List Nat) (st : RSt) : Except JErr (JsStr × RSt) :=
  let hs := readAmf3Integer buf st
  let header := hs.1
  let st1 := hs.2
  if header &&& 1 = 0 then
    let refIndex := header >>> 1
    if st1.strRefs.length ≤ refIndex then .error (.invalidStringRef refIndex)
    else .ok (st1.strRefs.getD refIndex [], st1)
  else
    let length := header >>> 1
    if length = 0 then .ok ([], st1)
    else
      let s := (buf.drop st1.offset).take length
      let st2 := bump st1 length
      .ok (s, { st2 with strRefs := st2.strRefs ++ [s] })

/-- `readAmf3Date`: reference (bounds-checked) or inline 8-byte millis; the
new date is appended to the object table. -/
def readAmf3Date (buf : List Nat) (st : RSt) : Except JErr (HVal × RSt) :=
  let hs := readAmf3Integer buf st
  let header := hs.1
  let st1 := hs.2
  if header &&& 1 = 0 then
    let refIndex := header >>> 1
    if st1.objRefs.length ≤ refIndex then .error (.invalidDateRef refIndex)
    else .ok (.ref (st1.objRefs.getD refIndex 0), st1)
  else
    let ms := readF64 buf st1.offset
    let st2 := bump st1 8
    let hi := halloc st2.heap (.date ms)
    .ok (.ref hi.2, { st2 with heap := hi.1, objRefs := st2.objRefs ++ [hi.2] })

/-- `readAmf3XML`: reference (bounds-checked) or inline text; the decoded
wrapper object is appended to the object table after the payload read. -/
def readAmf3XML (buf : List Nat) (st : RSt) (isAvmPlus : Bool) :
    Except JErr (HVal × RSt) :=
  let hs := readAmf3Integer buf st
  let header := hs.1
  let st1 := hs.2
  if header &&& 1 = 0 then
    let refIndex := header >>> 1
    if st1.objRefs.length ≤ refIndex then .error (.invalidXmlRef refIndex)
    else .ok (.ref (st1.objRefs.getD refIndex 0), st1)
  else
    let length := header >>> 1
    let s := (buf.drop st1.offset).take length
    let st2 := bump st1 length
    let hi := halloc st2.heap (.xml isAvmPlus s)
    .ok (.ref hi.2, { st2 with heap := hi.1, objRefs := st2.objRefs ++ [hi.2] })

/-- `readAmf3ByteArray`: reference (bounds-checked) or inline copy of
`length` bytes; the new buffer is appended to the object table. -/
def readAmf3ByteArray (buf : List Nat) (st : RSt) : Except JErr (HVal × RSt) :=
  let hs := readAmf3Integer buf st
  let header := hs.1
  let st1 := hs.2
  if header &&& 1 = 0 then
    let refIndex := header >>> 1
    if st1.objRefs.length ≤ refIndex then .error (.invalidByteArrayRef refIndex)
    else .ok (.ref (st1.objRefs.getD refIndex 0), st1)
  else
    let length := header >>> 1
    let data := (buf.drop st1.offset).take length
    let st2 := bump st1 length
    let hi := halloc st2.heap (.bytes data)
    .ok (.ref hi.2, { st2 with heap := hi.1, objRefs := st2.objRefs ++ [hi.2] })

/-- Sealed-name loop of `readAmf3Object` (reads `traitCount` names). -/
def readTraitNames (buf : List Nat) : Nat → RSt → List JsStr →
    Except JErr (List JsStr × RSt)
  | 0, st, acc => .ok (acc, st)
  | count + 1, st, acc =>
    match readAmf3String buf st with
    | .error e => .error e
    | .ok (name, st1) => readTraitNames buf count st1 (acc ++ [name])

mutual

/-- `readAmf3(buffer, info, type)`: read the marker unless one was handed
in, then dispatch.  The table initialization of the source is implicit in
the state. -/
def readAmf3 : Nat → List Nat → RSt → Option Nat → Except JErr (HVal × RSt)
  | 0, _, _, _ => .error .outOfFuel
  | f + 1, buf, st0, ty =>
    let ts : Nat × RSt :=
      match ty with
      | some t => (t, st0)
      | none => (buf.getD st0.offset 0, bump st0 1)
    let t := ts.1
    let st := ts.2
    if t = a3Undefined then .ok (.undef, st)
    else if t = a3Null then .ok (.null, st)
    else if t = a3False then .ok (.bool false, st)
    else if t = a3True then .ok (.bool true, st)
    else if t = a3Integer then
      let r := readAmf3Integer buf st
      .ok (.num (.intg (r.1 : Int)), r.2)
    else if t = a3Double then
      let r := readAmf3Double buf st
      .ok (.num r.1, r.2)
    else if t = a3String then
      match readAmf3String buf st with
      | .error e => .error e
      | .ok (s, st1) => .ok (.str s, st1)
    else if t = a3XML then readAmf3XML buf st false
    else if t = a3Date then readAmf3Date buf st
    else if t = a3Array then readAmf3Array f buf st
    else if t = a3Object then readAmf3Object f buf st
    else if t = a3AvmPlusXml then readAmf3XML buf st true
    else if t = a3ByteArray then readAmf3ByteArray buf st
    else .error (.amf3NotImplemented t)

termination_by structural a0 _ _ _ => a0

/-- `readAmf3Array`: reference (bounds-checked) or inline.  The fresh array
is appended to the object table before the associative and dense parts are
read, so payload references can resolve to it. -/
def readAmf3Array : Nat → List Nat → RSt → Except JErr (HVal × RSt)
  | 0, _, _ => .error .outOfFuel
  | f + 1, buf, st =>
    let hs := readAmf3Integer buf st
    let header := hs.1
    let st1 := hs.2
    if header &&& 1 = 0 then
      let refIndex := header >>> 1
      if st1.objRefs.length ≤ refIndex then .error (.invalidArrayRef refIndex)
      else .ok (.ref (st1.objRefs.getD refIndex 0), st1)
    else
      let length := header >>> 1
      let hi := halloc st1.heap (.arr [] [])
      let st2 := { st1 with heap := hi.1, objRefs := st1.objRefs ++ [hi.2] }
      match readAmf3ArrayAssoc f buf st2 hi.2 with
      | .error e => .error e
      | .ok st3 =>
        match readAmf3ArrayDense f buf st3 hi.2 length with
        | .error e => .error e
        | .ok st4 => .ok (.ref hi.2, st4)

termination_by structural a0 _ _ => a0

/-- Associative-part loop of `readAmf3Array` (string keys until the empty
string). -/
def readAmf3ArrayAssoc : Nat → List Nat → RSt → Nat → Except JErr RSt
  | 0, _, _, _ => .error .outOfFuel
  | f + 1, buf, st, i =>
    match readAmf3String buf st with
    | .error e => .error e
    | .ok (key, st1) =>
      if key = [] then .ok st1
      else
        match readAmf3 f buf st1 none with
        | .error e => .error e
        | .ok (v, st2) =>
          readAmf3ArrayAssoc f buf { st2 with heap := setObjPropH st2.heap i key v } i

termination_by structural a0 _ _ _ => a0

/-- Dense-part loop of `readAmf3Array` (`length` pushes). -/
def readAmf3ArrayDense : Nat → List Nat → RSt → Nat → Nat → Except JErr RSt
  | 0, _, _, _, _ => .error .outOfFuel
  | _ + 1, _, st, _, 0 => .ok st
  | f + 1, buf, st, i, count + 1 =>
    match readAmf3 f buf st none with
    | .error e => .error e
    | .ok (v, st1) =>
      readAmf3ArrayDense f buf { st1 with heap := pushDenseH st1.heap i v } i count

termination_by structural a0 _ _ _ _ => a0

/-- `readAmf3Object`: object reference (bounds-checked), trait reference
(bounds-checked), or inline trait.  The fresh object is appended to the
object table before its sealed and dynamic contents are read.  An
externalizable trait returns the shell flagged `__externalizable__`. -/
def readAmf3Object : Nat → List Nat → RSt → Except JErr (HVal × RSt)
  | 0, _, _ => .error .outOfFuel
  | f + 1, buf, st =>
    let hs := readAmf3Integer buf st
    let header := hs.1
    let st1 := hs.2
    if header &&& 1 = 0 then
      let refIndex := header >>> 1
      if st1.objRefs.length ≤ refIndex then .error (.invalidObjectRef refIndex)
      else .ok (.ref (st1.objRefs.getD refIndex 0), st1)
    else
      let isTraitReference := (header >>> 1) &&& 1 = 0
      let extBit := (header >>> 2) &&& 1 = 1
      let dynBit := (header >>> 3) &&& 1 = 1
      let traitCount := header >>> 4
      let traitRes : Except JErr (RTrait × RSt) :=
        if isTraitReference then
          let traitRefIndex := header >>> 2
          if st1.traitRefs.length ≤ traitRefIndex then
            .error (.invalidTraitRef traitRefIndex)
          else .ok (st1.traitRefs.getD traitRefIndex ⟨[], [], false, false⟩, st1)
        else
          match readAmf3String buf st1 with
          | .error e => .error e
          | .ok (className, st2) =>
            match readTraitNames buf traitCount st2 [] with
            | .error e => .error e
            | .ok (names, st3) =>
              let trait : RTrait := ⟨className, names, extBit, dynBit⟩
              .ok (trait, { st3 with traitRefs := st3.traitRefs ++ [trait] })
      match traitRes with
      | .error e => .error e
      | .ok (trait, st4) =>
        let baseProps : List (JsStr × HVal) :=
          if trait.className ≠ [] then [(keyClassName, .str trait.className)] else []
        let hi := halloc st4.heap (.obj baseProps)
        let st5 := { st4 with heap := hi.1, objRefs := st4.objRefs ++ [hi.2] }
        if trait.isExternalizable then
          .ok (.ref hi.2,
            { st5 with heap := setObjPropH st5.heap hi.2 keyExternalizable (.bool true) })
        else
          match readSealedValues f buf st5 hi.2 trait.propertyNames with
          | .error e => .error e
          | .ok st6 =>
            if trait.isDynamic then
              match readDynamicProps f buf st6 hi.2 with
              | .error e => .error e
              | .ok st7 => .ok (.ref hi.2, st7)
            else .ok (.ref hi.2, st6)

termination_by structural a0 _ _ => a0

/-- Sealed-value loop of `readAmf3Object` (one value per trait name, in
declared order). -/
def readSealedValues : Nat → List Nat → RSt → Nat → List JsStr → Except JErr RSt
  | 0, _, _, _, _ => .error .outOfFuel
  | _ + 1, _, st, _, [] => .ok st
  | f + 1, buf, st, i, name :: rest =>
    match readAmf3 f buf st none with
    | .error e => .error e
    | .ok (v, st1) =>
      readSealedValues f buf { st1 with heap := setObjPropH st1.heap i name v } i rest

termination_by structural a0 _ _ _ _ => a0

/-- Dynamic-property loop of `readAmf3Object` (name/value pairs until the
empty string). -/
def readDynamicProps : Nat → List Nat → RSt → Nat → Except JErr RSt
  | 0, _, _, _ => .error .outOfFuel
  | f + 1, buf, st, i =>
    match readAmf3String buf st with
    | .error e => .error e
    | .ok (key, st1) =>
      if key = [] then .ok st1
      else
        match readAmf3 f buf st1 none with
        | .error e => .error e
        | .ok (v, st2) =>
          readDynamicProps f buf { st2 with heap := setObjPropH st2.heap i key v } i

termination_by structural a0 _ _ _ => a0
end

/-!  lib/read.js, AMF0 half. -/

/-- `readString` (AMF0): 16-bit big-endian length then UTF-8 bytes. -/
def readString0 (buf : List Nat) (st : RSt) : JsStr × RSt :=
  let length := readBE buf st.offset 2
  let st1 := bump st 2
  let s := (buf.drop st1.offset).take length
  (s, bump st1 length)

/-- `readNumber` (AMF0): 8-byte big-endian double. -/
def readNumber0 (buf : List Nat) (st : RSt) : JsNum × RSt :=
  (readF64 buf st.offset, bump st 8)

/-- `readBoolean` (AMF0). -/
def readBoolean0 (buf : List Nat) (st : RSt) : Bool × RSt :=
  (buf.getD st.offset 0 ≠ 0, bump st 1)

/-- `readDate` (AMF0): millis double plus the reserved 2-byte timezone. -/
def readDate0 (buf : List Nat) (st : RSt) : HVal × RSt :=
  let ms := readF64 buf st.offset
  let st1 := bump st 8
  let st2 := bump st1 2
  let hi := halloc st2.heap (.date ms)
  (.ref hi.2, { st2 with heap := hi.1 })

/-- `readReference` (AMF0): 16-bit index into the reference list (an
out-of-range index reads as undefined, as in JS). -/
def readReference0 (buf : List Nat) (st : RSt) : HVal × RSt :=
  let index := readBE buf st.offset 2
  let st1 := bump st 2
  match st1.references.get? index with
  | some h => (.ref h, st1)
  | none => (.undef, st1)

mutual

/-- `read(buffer, info)`: reads the marker byte; in AMF0 mode the AVMPlus
marker flips the state to version 3 and delegates one value to the AMF3
reader; version 3 delegates directly with the marker already consumed. -/
def read : Nat → List Nat → RSt → Except JErr (HVal × RSt)
  | 0, _, _ => .error .outOfFuel
  | f + 1, buf, st0 =>
    let t := buf.getD st0.offset 0
    let st := bump st0 1
    if st.version = 0 ∧ t = a0AvmPlus then
      readAmf3 f buf { st with version := 3 } none
    else if st.version = 0 then
      if t = a0Number then
        let r := readNumber0 buf st
        .ok (.num r.1, r.2)
      else if t = a0Boolean then
        let r := readBoolean0 buf st
        .ok (.bool r.1, r.2)
      else if t = a0String then
        let r := readString0 buf st
        .ok (.str r.1, r.2)
      else if t = a0Object then
        let hi := halloc st.heap (.obj [])
        let st1 := { st with heap := hi.1, references := st.references ++ [hi.2] }
        match readObjectInto f buf st1 hi.2 with
        | .error e => .error e
        | .ok st2 => .ok (.ref hi.2, st2)
      else if t = a0Null then .ok (.null, st)
      else if t = a0Undefined then .ok (.undef, st)
      else if t = a0Reference then
        let r := readReference0 buf st
        .ok (r.1, r.2)
      else if t = a0ECMAArray then
        let st1 := bump st 4
        let hi := halloc st1.heap (.arr [] [])
        let st2 := { st1 with heap := hi.1, references := st1.references ++ [hi.2] }
        match readObjectInto f buf st2 hi.2 with
        | .error e => .error e
        | .ok st3 => .ok (.ref hi.2, st3)
      else if t = a0ObjectEnd then .ok (.endObj, st)
      else if t = a0StrictArray then
        let hi := halloc st.heap (.arr [] [])
        let st1 := { st with heap := hi.1, references := st.references ++ [hi.2] }
        let count := readBE buf st1.offset 4
        let st2 := bump st1 4
        let inner := { st2 with version := 0, strRefs := [], objRefs := [], traitRefs := [] }
        match readStrictElems f buf inner hi.2 count with
        | .error e => .error e
        | .ok st3 =>
          .ok (.ref hi.2,
            { st3 with version := st2.version, strRefs := st2.strRefs,
                       objRefs := st2.objRefs, traitRefs := st2.traitRefs })
      else if t = a0Date then
        let r := readDate0 buf st
        .ok (r.1, r.2)
      else if t = a0TypedObject then
        let ns := readString0 buf st
        let name := ns.1
        let st1 := ns.2
        let hi := halloc st1.heap (.obj [])
        let st2 := { st1 with heap := hi.1, references := st1.references ++ [hi.2] }
        match readObjectInto f buf st2 hi.2 with
        | .error e => .error e
        | .ok st3 =>
          .ok (.ref hi.2, { st3 with heap := setObjPropH st3.heap hi.2 keyClassName (.str name) })
      else .error (.amf0NotImplemented t)
    else readAmf3 f buf st (some t)

termination_by structural a0 _ _ => a0

/-- Body of `readObject` (AMF0): key/value pairs until END_OBJECT.  Nested
reads go through a reused temp info object: they start in version 0 with
initially absent AMF3 tables, the tables persist across iterations of this
loop, and none of version or tables leak back to the caller. -/
def readObjectInto : Nat → List Nat → RSt → Nat → Except JErr RSt
  | 0, _, _, _ => .error .outOfFuel
  | f + 1, buf, st, i =>
    let inner := { st with version := 0, strRefs := [], objRefs := [], traitRefs := [] }
    match readObjectLoop f buf inner i with
    | .error e => .error e
    | .ok st1 =>
      .ok { st1 with version := st.version, strRefs := st.strRefs,
                     objRefs := st.objRefs, traitRefs := st.traitRefs }

termination_by structural a0 _ _ _ => a0

/-- Key/value loop of `readObject`; the final assertions of the source
demand the empty key with END_OBJECT. -/
def readObjectLoop : Nat → List Nat → RSt → Nat → Except JErr RSt
  | 0, _, _, _ => .error .outOfFuel
  | f + 1, buf, st, i =>
    let ks := readString0 buf st
    let key := ks.1
    let st1 := ks.2
    match read f buf st1 with
    | .error e => .error e
    | .ok (v, st2) =>
      if v = .endObj then
        if key = [] then .ok st2 else .error .assertFail
      else readObjectLoop f buf { st2 with heap := setObjPropH st2.heap i key v } i

termination_by structural a0 _ _ _ => a0

/-- Element loop of `readStrictArray`; nested reads go through a reused
temp info object with the same isolation as `readObject` (the caller wraps
this loop in the table save/restore). -/
def readStrictElems : Nat → List Nat → RSt → Nat → Nat → Except JErr RSt
  | 0, _, _, _, _ => .error .outOfFuel
  | _ + 1, _, st, _, 0 => .ok st
  | f + 1, buf, st, i, count + 1 =>
    match read f buf st with
    | .error e => .error e
    | .ok (v, st1) =>
      readStrictElems f buf { st1 with heap := pushDenseH st1.heap i v } i count

termination_by structural a0 _ _ _ _ => a0
end

/-!  AMF3Decoder scaffold (first chunk of the decoder/encoder module). -/

/-- Trait record stored by the scaffold decoder (`_readString` can yield
undefined for an out-of-range reference, hence the options). -/
structure STrait where
  className : Option JsStr
  sealedCount : Nat
  isDynamic : Bool
  isExternalizable : Bool
  sealedNames : List (Option JsStr)
deriving DecidableEq, Repr

/-- Scaffold decoder state: cursor plus the three per-message tables. -/
structure SSt where
  offset : Nat
  heap : List HNode
  stringRefs : List JsStr
  objectRefs : List Nat
  traitRefs : List STrait
deriving DecidableEq, Repr

/-- Fresh scaffold decoder state. -/
def initSSt : SSt := ⟨0, [], [], [], []⟩

/-- Decimal digit bytes of a natural number. -/
def natToDec (n : Nat) : List Nat :=
  (Nat.toDigits 10 n).map Char.toNat

/-- Decimal rendering of an integer (leading minus sign when negative). -/
def intToDec (n : Int) : List Nat :=
  if n < 0 then 45 :: natToDec n.natAbs else natToDec n.toNat

/-- JS string coercion of a decoded value, used for dictionary keys.  The
decimal rendering of non-integer doubles and of object values is
approximated by fixed placeholders; no claim touches dictionary keys. -/
def jsStringOfHVal (v : HVal) : JsStr :=
  match v with
  | .undef => keyUndefinedStr
  | .null => [110, 117, 108, 108]
  | .bool true => [116, 114, 117, 101]
  | .bool false => [102, 97, 108, 115, 101]
  | .str s => s
  | .num (.intg n) => intToDec n
  | .num (.dbl _) => [91, 100, 98, 108, 93]
  | .ref _ => [91, 111, 98, 106, 101, 99, 116, 93]
  | .endObj => [91, 111, 98, 106, 101, 99, 116, 93]

/-- `AMF3Decoder._readU8`. -/
def sReadU8 (buf : List Nat) (st : SSt) : Nat × SSt :=
  (buf.getD st.offset 0, { st with offset := st.offset + 1 })

/-- `AMF3Decoder._readDouble`. -/
def sReadDouble (buf : List Nat) (st : SSt) : JsNum × SSt :=
  (readF64 buf st.offset, { st with offset := st.offset + 8 })

/-- `AMF3Decoder._readInteger`: `readU29` then sign extension of bit 28
through `(u29 | 0xE0000000) >> 0`. -/
def sReadInteger (buf : List Nat) (st : SSt) : Int × SSt :=
  let r := readU29 buf st.offset
  let u29 := r.1
  let st1 := { st with offset := r.2 }
  if u29 &&& 0x10000000 ≠ 0 then (toInt32 (u29 ||| 0xE0000000), st1)
  else ((u29 : Int), st1)

/-- `AMF3Decoder._readUTF8`. -/
def sReadUTF8 (buf : List Nat) (st : SSt) (length : Nat) : JsStr × SSt :=
  ((buf.drop st.offset).take length, { st with offset := st.offset + length })

/-- `AMF3Decoder._readString`: the reference branch performs no bounds
check, so an out-of-range index yields undefined (`none`). -/
def sReadString (buf : List Nat) (st : SSt) : Option JsStr × SSt :=
  let r := readU29 buf st.offset
  let u29 := r.1
  let st1 := { st with offset := r.2 }
  let refIndex := u29 >>> 1
  if u29 &&& 1 = 0 then
    (st1.stringRefs.get? refIndex, st1)
  else
    let length := refIndex
    if length = 0 then (some [], st1)
    else
      let ss := sReadUTF8 buf st1 length
      (some ss.1, { ss.2 with stringRefs := ss.2.stringRefs ++ [ss.1] })

/-- `AMF3Decoder._readXMLDoc` (and `_readXML`): header read as an inline
length, text returned as a plain string, no table interaction. -/
def sReadXMLText (buf : List Nat) (st : SSt) : JsStr × SSt :=
  let r := readU29 buf st.offset
  let length := r.1 >>> 1
  sReadUTF8 buf { st with offset := r.2 } length

/-- `AMF3Decoder._readDate`: unchecked reference branch, else inline
millis; the date is pushed after the payload read. -/
def sReadDate (buf : List Nat) (st : SSt) : HVal × SSt :=
  let r := readU29 buf st.offset
  let header := r.1
  let st1 := { st with offset := r.2 }
  if header &&& 1 = 0 then
    match st1.objectRefs.get? (header >>> 1) with
    | some h => (.ref h, st1)
    | none => (.undef, st1)
  else
    let ms := sReadDouble buf st1
    let hi := halloc ms.2.heap (.date ms.1)
    (.ref hi.2, { ms.2 with heap := hi.1, objectRefs := ms.2.objectRefs ++ [hi.2] })

/-- `AMF3Decoder._readByteArray`: unchecked reference branch, else slice;
the buffer is pushed after the payload read. -/
def sReadByteArray (buf : List Nat) (st : SSt) : HVal × SSt :=
  let r := readU29 buf st.offset
  let header := r.1
  let st1 := { st with offset := r.2 }
  if header &&& 1 = 0 then
    match st1.objectRefs.get? (header >>> 1) with
    | some h => (.ref h, st1)
    | none => (.undef, st1)
  else
    let length := header >>> 1
    let data := (buf.drop st1.offset).take length
    let st2 := { st1 with offset := st1.offset + length }
    let hi := halloc st2.heap (.bytes data)
    (.ref hi.2, { st2 with heap := hi.1, objectRefs := st2.objectRefs ++ [hi.2] })

/-- Sealed-name loop of `_readObject`. -/
def sReadTraitNames (buf : List Nat) : SSt → Nat → List (Option JsStr) →
    Except JErr (List (Option JsStr) × SSt)
  | st, 0, acc => .ok (acc, st)
  | st, count + 1, acc =>
    let ns := sReadString buf st
    sReadTraitNames buf ns.2 count (acc ++ [ns.1])

/-- `AMF3Decoder._readVectorPrimitive`: unchecked reference branch, else
fixed flag then `length` fixed-width elements; the vector is pushed before
the element loop. -/
def sReadVectorPrim (buf : List Nat) (st : SSt)
    (readOne : List Nat → Nat → HVal × Nat) : Except JErr (HVal × SSt) :=
  let r := readU29 buf st.offset
  let header := r.1
  let st1 := { st with offset := r.2 }
  if header &&& 1 = 0 then
    match st1.objectRefs.get? (header >>> 1) with
    | some h => .ok (.ref h, st1)
    | none => .ok (.undef, st1)
  else
    let length := header >>> 1
    let fs := sReadU8 buf st1
    let hi := halloc fs.2.heap (.arr [] [])
    let st2 := { fs.2 with heap := hi.1, objectRefs := fs.2.objectRefs ++ [hi.2] }
    let rec loop (st : SSt) (count : Nat) : SSt :=
      match count with
      | 0 => st
      | c + 1 =>
        let rv := readOne buf st.offset
        loop { st with offset := rv.2, heap := pushDenseH st.heap hi.2 rv.1 } c
    .ok (.ref hi.2, loop st2 length)

mutual

/-- `AMF3Decoder.readValue`: marker dispatch. -/
def sReadValue : Nat → List Nat → SSt → Except JErr (HVal × SSt)
  | 0, _, _ => .error .outOfFuel
  | f + 1, buf, st0 =>
    let ms := sReadU8 buf st0
    let marker := ms.1
    let st := ms.2
    if marker = 0x00 then .ok (.undef, st)
    else if marker = 0x01 then .ok (.null, st)
    else if marker = 0x02 then .ok (.bool false, st)
    else if marker = 0x03 then .ok (.bool true, st)
    else if marker = 0x04 then
      let r := sReadInteger buf st
      .ok (.num (.intg r.1), r.2)
    else if marker = 0x05 then
      let r := sReadDouble buf st
      .ok (.num r.1, r.2)
    else if marker = 0x06 then
      let r := sReadString buf st
      match r.1 with
      | some s => .ok (.str s, r.2)
      | none => .ok (.undef, r.2)
    else if marker = 0x07 then
      let r := sReadXMLText buf st
      .ok (.str r.1, r.2)
    else if marker = 0x08 then
      let r := sReadDate buf st
      .ok (r.1, r.2)
    else if marker = 0x09 then sReadArray f buf st
    else if marker = 0x0A then sReadObject f buf st
    else if marker = 0x0B then
      let r := sReadXMLText buf st
      .ok (.str r.1, r.2)
    else if marker = 0x0C then
      let r := sReadByteArray buf st
      .ok (r.1, r.2)
    else if marker = 0x0D then
      sReadVectorPrim buf st (fun b o => (.num (.intg (toInt32 (readBE b o 4))), o + 4))
    else if marker = 0x0E then
      sReadVectorPrim buf st (fun b o => (.num (.intg ((readBE b o 4 : Nat) : Int)), o + 4))
    else if marker = 0x0F then
      sReadVectorPrim buf st (fun b o => (.num (readF64 b o), o + 8))
    else if marker = 0x10 then sReadVectorObject f buf st
    else if marker = 0x11 then sReadDictionary f buf st
    else .error (.unknownAmf3Marker marker)

termination_by structural a0 _ _ => a0

/-- `AMF3Decoder._readArray`: unchecked reference branch; for inline
arrays the associative part and then the dense part are read first, and
the array is appended to the object table only afterwards. -/
def sReadArray : Nat → List Nat → SSt → Except JErr (HVal × SSt)
  | 0, _, _ => .error .outOfFuel
  | f + 1, buf, st =>
    let r := readU29 buf st.offset
    let header := r.1
    let st1 := { st with offset := r.2 }
    if header &&& 1 = 0 then
      match st1.objectRefs.get? (header >>> 1) with
      | some h => .ok (.ref h, st1)
      | none => .ok (.undef, st1)
    else
      let denseLength := header >>> 1
      match sReadArrayAssoc f buf st1 [] with
      | .error e => .error e
      | .ok (assoc, st2) =>
        match sReadArrayDense f buf st2 [] denseLength with
        | .error e => .error e
        | .ok (dense, st3) =>
          let hi := halloc st3.heap (.arr dense assoc)
          .ok (.ref hi.2,
            { st3 with heap := hi.1, objectRefs := st3.objectRefs ++ [hi.2] })

termination_by structural a0 _ _ => a0

/-- Associative loop of `_readArray` (a missing or empty key ends it). -/
def sReadArrayAssoc : Nat → List Nat → SSt → List (JsStr × HVal) →
    Except JErr (List (JsStr × HVal) × SSt)
  | 0, _, _, _ => .error .outOfFuel
  | f + 1, buf, st, acc =>
    let ks := sReadString buf st
    match ks.1 with
    | none => .ok (acc, ks.2)
    | some key =>
      if key = [] then .ok (acc, ks.2)
      else
        match sReadValue f buf ks.2 with
        | .error e => .error e
        | .ok (v, st1) => sReadArrayAssoc f buf st1 (setAssoc acc key v)

termination_by structural a0 _ _ _ => a0

/-- Dense loop of `_readArray`. -/
def sReadArrayDense : Nat → List Nat → SSt → List HVal → Nat →
    Except JErr (List HVal × SSt)
  | 0, _, _, _, _ => .error .outOfFuel
  | _ + 1, _, st, acc, 0 => .ok (acc, st)
  | f + 1, buf, st, acc, count + 1 =>
    match sReadValue f buf st with
    | .error e => .error e
    | .ok (v, st1) => sReadArrayDense f buf st1 (acc ++ [v]) count

termination_by structural a0 _ _ _ _ => a0

/-- `AMF3Decoder._readObject`: unchecked object-reference branch,
unchecked trait-reference branch, else inline trait. -/
def sReadObject : Nat → List Nat → SSt → Except JErr (HVal × SSt)
  | 0, _, _ => .error .outOfFuel
  | f + 1, buf, st =>
    let r := readU29 buf st.offset
    let header := r.1
    let st1 := { st with offset := r.2 }
    if header &&& 1 = 0 then
      match st1.objectRefs.get? (header >>> 1) with
      | some h => .ok (.ref h, st1)
      | none => .ok (.undef, st1)
    else
      let info := header >>> 1
      if info &&& 1 = 0 then
        sReadObjectWithTrait f buf st1 (st1.traitRefs.get? (info >>> 1))
      else
        let isExternalizable := info &&& 2 ≠ 0
        let isDynamic := info &&& 4 ≠ 0
        let sealedCount := info >>> 3
        let cs := sReadString buf st1
        match sReadTraitNames buf cs.2 sealedCount [] with
        | .error e => .error e
        | .ok (names, st2) =>
          let trait : STrait := ⟨cs.1, sealedCount, isDynamic, isExternalizable, names⟩
          let st3 := { st2 with traitRefs := st2.traitRefs ++ [trait] }
          sReadObjectWithTrait f buf st3 (some trait)

termination_by structural a0 _ _ => a0

/-- `AMF3Decoder._readObjectWithTrait`: appends the fresh object before
reading its fields, then fails hard on externalizable traits (there is no
registry in the scaffold). -/
def sReadObjectWithTrait : Nat → List Nat → SSt → Option STrait →
    Except JErr (HVal × SSt)
  | 0, _, _, _ => .error .outOfFuel
  | f + 1, buf, st, traitOpt =>
    match traitOpt with
    | none => .error .typeError
    | some trait =>
      let hi := halloc st.heap (.obj [])
      let st1 := { st with heap := hi.1, objectRefs := st.objectRefs ++ [hi.2] }
      if trait.isExternalizable then
        .error (.externalizableNotImplemented (trait.className.getD []))
      else
        match sReadSealed f buf st1 hi.2 trait.sealedNames with
        | .error e => .error e
        | .ok st2 =>
          if trait.isDynamic then
            match sReadDynamic f buf st2 hi.2 with
            | .error e => .error e
            | .ok st3 => .ok (.ref hi.2, st3)
          else .ok (.ref hi.2, st2)

termination_by structural a0 _ _ _ => a0

/-- Sealed-field loop of `_readObjectWithTrait` (an undefined name coerces
to the key "undefined"). -/
def sReadSealed : Nat → List Nat → SSt → Nat → List (Option JsStr) → Except JErr SSt
  | 0, _, _, _, _ => .error .outOfFuel
  | _ + 1, _, st, _, [] => .ok st
  | f + 1, buf, st, i, name :: rest =>
    match sReadValue f buf st with
    | .error e => .error e
    | .ok (v, st1) =>
      sReadSealed f buf
        { st1 with heap := setObjPropH st1.heap i (name.getD keyUndefinedStr) v } i rest

termination_by structural a0 _ _ _ _ => a0

/-- Dynamic-field loop of `_readObjectWithTrait`. -/
def sReadDynamic : Nat → List Nat → SSt → Nat → Except JErr SSt
  | 0, _, _, _ => .error .outOfFuel
  | f + 1, buf, st, i =>
    let ks := sReadString buf st
    match ks.1 with
    | none => .ok ks.2
    | some key =>
      if key = [] then .ok ks.2
      else
        match sReadValue f buf ks.2 with
        | .error e => .error e
        | .ok (v, st1) =>
          sReadDynamic f buf { st1 with heap := setObjPropH st1.heap i key v } i

termination_by structural a0 _ _ _ => a0

/-- `AMF3Decoder._readVectorObject`: as the primitive vectors plus a type
name, elements through `readValue`; pushed before the element loop. -/
def sReadVectorObject : Nat → List Nat → SSt → Except JErr (HVal × SSt)
  | 0, _, _ => .error .outOfFuel
  | f + 1, buf, st =>
    let r := readU29 buf st.offset
    let header := r.1
    let st1 := { st with offset := r.2 }
    if header &&& 1 = 0 then
      match st1.objectRefs.get? (header >>> 1) with
      | some h => .ok (.ref h, st1)
      | none => .ok (.undef, st1)
    else
      let length := header >>> 1
      let fs := sReadU8 buf st1
      let ts := sReadString buf fs.2
      let hi := halloc ts.2.heap (.arr [] [])
      let st2 := { ts.2 with heap := hi.1, objectRefs := ts.2.objectRefs ++ [hi.2] }
      match sReadVectorElems f buf st2 hi.2 length with
      | .error e => .error e
      | .ok st3 => .ok (.ref hi.2, st3)

termination_by structural a0 _ _ => a0

/-- Element loop of `_readVectorObject`. -/
def sReadVectorElems : Nat → List Nat → SSt → Nat → Nat → Except JErr SSt
  | 0, _, _, _, _ => .error .outOfFuel
  | _ + 1, _, st, _, 0 => .ok st
  | f + 1, buf, st, i, count + 1 =>
    match sReadValue f buf st with
    | .error e => .error e
    | .ok (v, st1) =>
      sReadVectorElems f buf { st1 with heap := pushDenseH st1.heap i v } i count

termination_by structural a0 _ _ _ _ => a0

/-- `AMF3Decoder._readDictionary`: unchecked reference branch, else weak
flag and `size` key/value pairs into a string-keyed map; pushed before the
pair loop. -/
def sReadDictionary : Nat → List Nat → SSt → Except JErr (HVal × SSt)
  | 0, _, _ => .error .outOfFuel
  | f + 1, buf, st =>
    let r := readU29 buf st.offset
    let header := r.1
    let st1 := { st with offset := r.2 }
    if header &&& 1 = 0 then
      match st1.objectRefs.get? (header >>> 1) with
      | some h => .ok (.ref h, st1)
      | none => .ok (.undef, st1)
    else
      let size := header >>> 1
      let ws := sReadU8 buf st1
      let hi := halloc ws.2.heap (.obj [])
      let st2 := { ws.2 with heap := hi.1, objectRefs := ws.2.objectRefs ++ [hi.2] }
      match sReadDictPairs f buf st2 hi.2 size with
      | .error e => .error e
      | .ok st3 => .ok (.ref hi.2, st3)

termination_by structural a0 _ _ => a0

/-- Pair loop of `_readDictionary`. -/
def sReadDictPairs : Nat → List Nat → SSt → Nat → Nat → Except JErr SSt
  | 0, _, _, _, _ => .error .outOfFuel
  | _ + 1, _, st, _, 0 => .ok st
  | f + 1, buf, st, i, count + 1 =>
    match sReadValue f buf st with
    | .error e => .error e
    | .ok (k, st1) =>
      match sReadValue f buf st1 with
      | .error e => .error e
      | .ok (v, st2) =>
        sReadDictPairs f buf
          { st2 with heap := setObjPropH st2.heap i (jsStringOfHVal k) v } i count

termination_by structural a0 _ _ _ _ => a0
end

/-!  AMF3Encoder scaffold (second chunk of the decoder/encoder module). -/

/-- Scaffold encoder state: chunk stream (flattened) and tables. -/
structure ESt where
  out : List Nat
  stringRefs : List JsStr
  objectRefs : List Nat
deriving DecidableEq, Repr

/-- Fresh scaffold encoder state. -/
def initESt : ESt := ⟨[], [], []⟩

/-- Append bytes to the encoder chunk stream. -/
def epush (st : ESt) (bs : List Nat) : ESt :=
  { st with out := st.out ++ bs }

/-- `AMF3Encoder._u29`: range check then one to four bytes (same byte
bodies as the write.js integer writer). -/
def encU29 (n : Nat) (st : ESt) : Except JErr ESt :=
  if 0x20000000 ≤ n then .error (.u29OutOfRange n)
  else .ok (epush st (u29W n))

/-- `AMF3Encoder._writeAmf3StringNoMarker`: reference lookup, empty inline,
else push to the table and emit header plus bytes; never a marker byte. -/
def encStringNoMarker (s : JsStr) (st : ESt) : Except JErr ESt :=
  match jsIndexOf st.stringRefs s with
  | some i => encU29 (i <<< 1) st
  | none =>
    if s = [] then encU29 1 st
    else
      let st1 := { st with stringRefs := st.stringRefs ++ [s] }
      match encU29 ((s.length <<< 1) ||| 1) st1 with
      | .error e => .error e
      | .ok st2 => .ok (epush st2 s)

mutual

/-- `AMF3Encoder.encodeValue`: markers and bodies as in the scaffold; the
integer path masks the signed value into its low 29 bits. -/
def encodeValue : Nat → List HNode → HVal → ESt → Except JErr ESt
  | 0, _, _, _ => .error .outOfFuel
  | f + 1, heap, v, st =>
    match v with
    | .undef => .ok (epush st [0x00])
    | .null => .ok (epush st [0x01])
    | .bool false => .ok (epush st [0x02])
    | .bool true => .ok (epush st [0x03])
    | .num (.intg n) =>
      if -268435456 ≤ n ∧ n ≤ 268435455 then
        let st1 := epush st [0x04]
        encU29 (int32Bits n &&& 0x1FFFFFFF) st1
      else .ok (epush (epush st [0x05]) (f64Bytes (.intg n)))
    | .num (.dbl bits) => .ok (epush (epush st [0x05]) (f64Bytes (.dbl bits)))
    | .str s =>
      let st1 := epush st [0x06]
      match jsIndexOf st1.stringRefs s with
      | some i => encU29 (i <<< 1) st1
      | none =>
        if s = [] then encU29 1 st1
        else
          let st2 := { st1 with stringRefs := st1.stringRefs ++ [s] }
          match encU29 ((s.length <<< 1) ||| 1) st2 with
          | .error e => .error e
          | .ok st3 => .ok (epush st3 s)
    | .endObj => .error .typeError
    | .ref i =>
      match heap.get? i with
      | none => .error .typeError
      | some (.date ms) =>
        let st1 := epush st [0x08]
        match jsIndexOf st1.objectRefs i with
        | some idx => encU29 (idx <<< 1) st1
        | none =>
          let st2 := { st1 with objectRefs := st1.objectRefs ++ [i] }
          match encU29 1 st2 with
          | .error e => .error e
          | .ok st3 => .ok (epush st3 (f64Bytes ms))
      | some (.bytes data) =>
        let st1 := epush st [0x0C]
        match jsIndexOf st1.objectRefs i with
        | some idx => encU29 (idx <<< 1) st1
        | none =>
          let st2 := { st1 with objectRefs := st1.objectRefs ++ [i] }
          match encU29 ((data.length <<< 1) ||| 1) st2 with
          | .error e => .error e
          | .ok st3 => .ok (epush st3 data)
      | some (.arr dense assoc) =>
        let st1 := epush st [0x09]
        match jsIndexOf st1.objectRefs i with
        | some idx => encU29 (idx <<< 1) st1
        | none =>
          let st2 := { st1 with objectRefs := st1.objectRefs ++ [i] }
          let length := dense.length
          match encU29 ((length <<< 1) ||| 1) st2 with
          | .error e => .error e
          | .ok st3 =>
            let keys := (assoc.map Prod.fst).filter
              (fun k => !(match strictDecNat k with
                          | some n => decide (n < length)
                          | none => false))
            match encAssocPairs f heap assoc keys st3 with
            | .error e => .error e
            | .ok st4 =>
              match encStringNoMarker [] st4 with
              | .error e => .error e
              | .ok st5 => encDenseElems f heap dense length 0 st5
      | some (.xml _ _) => encObjectBody f heap i [] st
      | some (.obj props) => encObjectBody f heap i props st

termination_by structural a0 _ _ _ => a0

/-- Object tail of `encodeValue` (the final branch): marker, reference
lookup, trait header with zero sealed names, class name, dynamic
properties, terminator.  Externalizable objects fail hard after the class
name is written. -/
def encObjectBody : Nat → List HNode → Nat → List (JsStr × HVal) → ESt →
    Except JErr ESt
  | 0, _, _, _, _ => .error .outOfFuel
  | f + 1, heap, i, props, st =>
    let st1 := epush st [0x0A]
    match jsIndexOf st1.objectRefs i with
    | some idx => encU29 (idx <<< 1) st1
    | none =>
      let st2 := { st1 with objectRefs := st1.objectRefs ++ [i] }
      let className : JsStr :=
        match jsGetProp props keyClassName with
        | .str s => s
        | _ => []
      let isExternalizable := jsGetProp props keyExternalizable = .bool true
      if isExternalizable then
        match encU29 (0x03 ||| (1 <<< 2)) st2 with
        | .error e => .error e
        | .ok st3 =>
          match encStringNoMarker className st3 with
          | .error e => .error e
          | .ok _ => .error (.externalizableNotImplemented className)
      else
        match encU29 (0x03 ||| (1 <<< 3) ||| (0 <<< 4)) st2 with
        | .error e => .error e
        | .ok st3 =>
          match encStringNoMarker className st3 with
          | .error e => .error e
          | .ok st4 =>
            let props2 := props.filter
              (fun p => p.1 ≠ keyClassName ∧ p.1 ≠ keyExternalizable)
            match encDynProps f heap props2 st4 with
            | .error e => .error e
            | .ok st5 => encStringNoMarker [] st5

termination_by structural a0 _ _ _ _ => a0

/-- Associative-pair loop of the scaffold array encoder. -/
def encAssocPairs : Nat → List HNode → List (JsStr × HVal) → List JsStr → ESt →
    Except JErr ESt
  | 0, _, _, _, _ => .error .outOfFuel
  | _ + 1, _, _, [], st => .ok st
  | f + 1, heap, assoc, k :: rest, st =>
    match encStringNoMarker k st with
    | .error e => .error e
    | .ok st1 =>
      match encodeValue f heap (jsGetProp assoc k) st1 with
      | .error e => .error e
      | .ok st2 => encAssocPairs f heap assoc rest st2

termination_by structural a0 _ _ _ _ => a0

/-- Dense-element loop of the scaffold array encoder. -/
def encDenseElems : Nat → List HNode → List HVal → Nat → Nat → ESt → Except JErr ESt
  | 0, _, _, _, _, _ => .error .outOfFuel
  | f + 1, heap, dense, len, idx, st =>
    if idx < len then
      match encodeValue f heap (dense.getD idx .undef) st with
      | .error e => .error e
      | .ok st1 => encDenseElems f heap dense len (idx + 1) st1
    else .ok st

termination_by structural a0 _ _ _ _ _ => a0

/-- Dynamic-property loop of the scaffold object encoder. -/
def encDynProps : Nat → List HNode → List (JsStr × HVal) → ESt → Except JErr ESt
  | 0, _, _, _ => .error .outOfFuel
  | _ + 1, _, [], st => .ok st
  | f + 1, heap, p :: rest, st =>
    match encStringNoMarker p.1 st with
    | .error e => .error e
    | .ok st1 =>
      match encodeValue f heap p.2 st1 with
      | .error e => .error e
      | .ok st2 => encDynProps f heap rest st2

termination_by structural a0 _ _ _ => a0
end

/-!  lib/remoting.js, decode side. -/

/-- `readInt32BE`. -/
def readInt32BE (buf : List Nat) (off : Nat) : Int :=
  toInt32 (readBE buf off 4)

/-- `readUtf8(buffer, offset)` helper of remoting.js: 16-bit length,
bytes, advanced offset. -/
def readUtf8P (buf : List Nat) (off : Nat) : JsStr × Nat :=
  let length := readBE buf off 2
  (((buf.drop (off + 2)).take length), off + 2 + length)

/-- One decoded Remoting header. -/
structure PHeader where
  name : JsStr
  mustUnderstand : Bool
  value : HVal
  length : Int
  objectEncoding : Nat
  heap : List HNode
deriving DecidableEq, Repr

/-- One decoded Remoting message. -/
structure PMessage where
  targetUri : JsStr
  responseUri : JsStr
  body : HVal
  length : Int
  objectEncoding : Nat
  heap : List HNode
deriving DecidableEq, Repr

/-- Offset of the header value: after the name, the mustUnderstand byte and
the i32 length field. -/
def headerValueOffset (buf : List Nat) (off : Nat) : Nat :=
  (readUtf8P buf off).2 + 1 + 4

/-- Declared i32 length of a header starting at `off`. -/
def headerDeclaredLength (buf : List Nat) (off : Nat) : Int :=
  readInt32BE buf ((readUtf8P buf off).2 + 1)

/-- One iteration of the header loop of `decodePacket`: prelude fields, one
AMF value read in a fresh version-0 state, then the cursor rule on the
declared length. -/
def decodeHeaderOne (fuel : Nat) (buf : List Nat) (off : Nat) :
    Except JErr (PHeader × Nat) :=
  let ns := readUtf8P buf off
  let name := ns.1
  let off1 := ns.2
  let mustUnderstand := buf.getD off1 0 = 1
  let off2 := off1 + 1
  let contentLength := readInt32BE buf off2
  let off3 := off2 + 4
  let valueOffset := off3
  match read fuel buf (initRSt valueOffset 0) with
  | .error e => .error e
  | .ok (v, st) =>
    let consumed := st.offset - valueOffset
    let offN : Nat :=
      if 0 ≤ contentLength then valueOffset + contentLength.toNat
      else valueOffset + consumed
    .ok (⟨name, mustUnderstand, v, contentLength, st.version, st.heap⟩, offN)

/-- Offset of the message body: after the two URI strings and the i32
length field. -/
def messageBodyOffset (buf : List Nat) (off : Nat) : Nat :=
  (readUtf8P buf (readUtf8P buf off).2).2 + 4

/-- Declared i32 length of a message starting at `off`. -/
def messageDeclaredLength (buf : List Nat) (off : Nat) : Int :=
  readInt32BE buf (readUtf8P buf (readUtf8P buf off).2).2

/-- One iteration of the message loop of `decodePacket`. -/
def decodeMessageOne (fuel : Nat) (buf : List Nat) (off : Nat) :
    Except JErr (PMessage × Nat) :=
  let ts := readUtf8P buf off
  let rs := readUtf8P buf ts.2
  let bodyLength := readInt32BE buf rs.2
  let off1 := rs.2 + 4
  let bodyOffset := off1
  match read fuel buf (initRSt bodyOffset 0) with
  | .error e => .error e
  | .ok (v, st) =>
    let consumed := st.offset - bodyOffset
    let offN : Nat :=
      if 0 ≤ bodyLength then bodyOffset + bodyLength.toNat
      else bodyOffset + consumed
    .ok (⟨ts.1, rs.1, v, bodyLength, st.version, st.heap⟩, offN)

/-- Decoded Remoting packet. -/
structure Packet where
  version : Nat
  headers : List PHeader
  messages : List PMessage
  byteLength : Nat
deriving DecidableEq, Repr

/-- Header loop of `decodePacket`. -/
def decodeHeaders (fuel : Nat) (buf : List Nat) : Nat → Nat → List PHeader →
    Except JErr (List PHeader × Nat)
  | 0, off, acc => .ok (acc, off)
  | count + 1, off, acc =>
    match decodeHeaderOne fuel buf off with
    | .error e => .error e
    | .ok (h, off1) => decodeHeaders fuel buf count off1 (acc ++ [h])

/-- Message loop of `decodePacket`. -/
def decodeMessages (fuel : Nat) (buf : List Nat) : Nat → Nat → List PMessage →
    Except JErr (List PMessage × Nat)
  | 0, off, acc => .ok (acc, off)
  | count + 1, off, acc =>
    match decodeMessageOne fuel buf off with
    | .error e => .error e
    | .ok (m, off1) => decodeMessages fuel buf count off1 (acc ++ [m])

/-- `remoting.decodePacket(buffer, options)`: version, headers, messages,
and the total consumed byte length. -/
def decodePacket (fuel : Nat) (buf : List Nat) (off0 : Nat) :
    Except JErr Packet :=
  let version := readBE buf off0 2
  let headerCount := readBE buf (off0 + 2) 2
  match decodeHeaders fuel buf headerCount (off0 + 4) [] with
  | .error e => .error e
  | .ok (headers, off1) =>
    let messageCount := readBE buf off1 2
    match decodeMessages fuel buf messageCount (off1 + 2) [] with
    | .error e => .error e
    | .ok (messages, off2) =>
      .ok ⟨version, headers, messages, off2 - off0⟩

/-!  Wire-layout artifacts for the format theorems.

The chunk functions below restate, as standalone pure functions, the byte
layout produced for raw (marker-free) AMF3 strings and for primitive
values; the format theorems equate the writer output with these chunks and
run the decoder over them. -/

/-- Primitive value domain used by the round-trip format lemmas. -/
inductive Prim where
  | pundef
  | pnull
  | pbool (b : Bool)
  | pint (n : Int)
  | pstr (s : JsStr)
deriving DecidableEq, Repr

/-- The JS value denoted by a primitive (identical on the encoder input and
the decoder output side, since primitives carry no identity). -/
def primVal : Prim → HVal
  | .pundef => .undef
  | .pnull => .null
  | .pbool b => .bool b
  | .pint n => .num (.intg n)
  | .pstr s => .str s

/-- Domain condition on a primitive: integers lie in [0, 2^28) (keeping
clear of the sign-extension defect), strings are shorter than 2^28. -/
def primOKb : Prim → Bool
  | .pint n => decide (0 ≤ n ∧ n < 268435456)
  | .pstr s => decide (s.length < 268435456)
  | _ => true

/-- Raw AMF3 string chunk: the bytes a reference-aware marker-free string
write produces against table `T`, together with the updated table. -/
def stringChunk (T : List JsStr) (s : JsStr) : List Nat × List JsStr :=
  match jsIndexOf T s with
  | some i => (u29W (i <<< 1), T)
  | none =>
    if s = [] then (u29W 1, T)
    else (u29W ((s.length <<< 1) ||| 1) ++ s, T ++ [s])

/-- Chunks of a sequence of raw strings, threading the table. -/
def chunkSeq (T : List JsStr) : List JsStr → List Nat × List JsStr
  | [] => ([], T)
  | s :: rest =>
    let c := stringChunk T s
    let r := chunkSeq c.2 rest
    (c.1 ++ r.1, r.2)

/-- Wire bytes of one primitive value: marker byte plus body. -/
def primChunk (T : List JsStr) : Prim → List Nat × List JsStr
  | .pundef => ([0x00], T)
  | .pnull => ([0x01], T)
  | .pbool b => ([if b then 0x03 else 0x02], T)
  | .pint n => (0x04 :: u29W n.toNat, T)
  | .pstr s =>
    let c := stringChunk T s
    (0x06 :: c.1, c.2)

/-- Chunks of a sequence of primitive values. -/
def primChunkSeq (T : List JsStr) : List Prim → List Nat × List JsStr
  | [] => ([], T)
  | p :: rest =>
    let c := primChunk T p
    let r := primChunkSeq c.2 rest
    (c.1 ++ r.1, r.2)

/-- Chunks of a key/value pair sequence (raw string key, then value). -/
def pairChunkSeq (T : List JsStr) : List (JsStr × Prim) → List Nat × List JsStr
  | [] => ([], T)
  | p :: rest =>
    let kc := stringChunk T p.1
    let vc := primChunk kc.2 p.2
    let r := pairChunkSeq vc.2 rest
    (kc.1 ++ vc.1 ++ r.1, r.2)

/-- Full wire image of a fresh AMF3 object with class name `c` and
property list `ps`, as laid out by writeAmf3Object: marker, trait header
(inline + inline trait + dynamic + sealed count), then the class name, the
property names, the property values, and the dynamic terminator.  Class
name and property names appear as raw string chunks with no 0x06 marker
byte in front of them. -/
def objWire (c : JsStr) (ps : List (JsStr × Prim)) : List Nat :=
  let cChunk := stringChunk [] c
  let nChunks := chunkSeq cChunk.2 (ps.map Prod.fst)
  let vChunks := primChunkSeq nChunks.2 (ps.map Prod.snd)
  let tChunk := stringChunk vChunks.2 []
  [0x0A] ++ u29W (16 * ps.length + 11) ++ cChunk.1 ++ nChunks.1 ++ vChunks.1 ++ tChunk.1

/-- Full wire image of a fresh AMF3 array with dense part `dense` and
associative part `assoc`: marker, length header, associative pairs (raw
string keys, no 0x06 marker in front), empty-string terminator, then the
dense values. -/
def arrWire (dense : List Prim) (assoc : List (JsStr × Prim)) : List Nat :=
  let aChunks := pairChunkSeq [] assoc
  let tChunk := stringChunk aChunks.2 []
  let dChunks := primChunkSeq tChunk.2 dense
  [0x09] ++ u29W (2 * dense.length + 1) ++ aChunks.1 ++ tChunk.1 ++ dChunks.1

/-!  Arithmetic toolkit for the U29 bit manipulations. -/

theorem and_one_eq_mod (n : Nat) : n &&& 1 = n % 2 := by
  calc n &&& 1 = n &&& (2 ^ 1 - 1) := by norm_num
    _ = n % 2 ^ 1 := Nat.and_pow_two_sub_one_eq_mod n 1
    _ = n % 2 := by norm_num

theorem and127_eq_mod (n : Nat) : n &&& 127 = n % 128 := by
  calc n &&& 127 = n &&& (2 ^ 7 - 1) := by norm_num
    _ = n % 2 ^ 7 := Nat.and_pow_two_sub_one_eq_mod n 7
    _ = n % 128 := by norm_num

theorem and255_eq_mod (n : Nat) : n &&& 255 = n % 256 := by
  calc n &&& 255 = n &&& (2 ^ 8 - 1) := by norm_num
    _ = n % 2 ^ 8 := Nat.and_pow_two_sub_one_eq_mod n 8
    _ = n % 256 := by norm_num

theorem shl_eq_mul (a k : Nat) : a <<< k = a * 2 ^ k := Nat.shiftLeft_eq a k

theorem shr_eq_div (a k : Nat) : a >>> k = a / 2 ^ k := Nat.shiftRight_eq_div_pow a k

/-- Disjoint bitwise or is addition: a multiple of 2^k or-ed with a value
below 2^k. -/
theorem or_of_mul_add {b k : Nat} (h : b < 2 ^ k) (a : Nat) :
    (a * 2 ^ k) ||| b = a * 2 ^ k + b := by
  rw [Nat.mul_comm a (2 ^ k)]
  exact (Nat.mul_add_lt_is_or h a).symm

/-- Byte with the continuation bit: `0x80 ||| x` for `x < 128`. -/
theorem or128_eq_add {x : Nat} (h : x < 128) : 128 ||| x = 128 + x := by
  have h7 : x < 2 ^ 7 := by norm_num; omega
  have := or_of_mul_add h7 1
  norm_num at this
  omega

/-- Low-bit tag: `(a <<< 1) ||| 1 = 2 * a + 1`. -/
theorem or_shl1_one (a : Nat) : (a <<< 1) ||| 1 = 2 * a + 1 := by
  have h1 : (1 : Nat) < 2 ^ 1 := by norm_num
  have := or_of_mul_add h1 a
  rw [shl_eq_mul]
  norm_num at this ⊢
  omega

/-- Byte access in the middle section of a three-part buffer. -/
theorem getD_concat (pre mid rest : List Nat) (k : Nat) (h : k < mid.length) :
    (pre ++ mid ++ rest).getD (pre.length + k) 0 = mid.getD k 0 := by
  rw [List.append_assoc]
  rw [List.getD_eq_getElem?_getD, List.getD_eq_getElem?_getD]
  rw [List.getElem?_append_right (by omega)]
  have hk : pre.length + k - pre.length = k := by omega
  rw [hk]
  rw [List.getElem?_append_left h]

theorem or_mul128 {b : Nat} (h : b < 128) (a : Nat) : (a * 128) ||| b = a * 128 + b := by
  have := or_of_mul_add (b := b) (k := 7) (by omega) a
  norm_num at this
  exact this

theorem or_mul256 {b : Nat} (h : b < 256) (a : Nat) : (a * 256) ||| b = a * 256 + b := by
  have := or_of_mul_add (b := b) (k := 8) (by omega) a
  norm_num at this
  exact this

/-- The hand-rolled `readAmf3Integer` inverts the byte bodies of
`writeAmf3Integer` for every value below 2^29, consuming exactly the
emitted bytes. -/
theorem readAmf3Integer_u29W (n : Nat) (h : n < 2 ^ 29) (pre rest : List Nat)
    (st : RSt) (ho : st.offset = pre.length) :
    readAmf3Integer (pre ++ u29W n ++ rest) st = (n, bump st (u29W n).length) := by
  rcases Nat.lt_or_ge n 128 with h1 | h1
  · have hu : u29W n = [n] := by unfold u29W; rw [if_pos h1]
    rw [hu]
    have hb0 : (pre ++ [n] ++ rest).getD st.offset 0 = n := by
      rw [ho, show pre.length = pre.length + 0 from rfl]
      exact getD_concat pre [n] rest 0 (by simp)
    simp only [readAmf3Integer, hb0, if_pos h1, List.length_singleton]
  · rcases Nat.lt_or_ge n 16384 with h2 | h2
    · have e1 : (n >>> 7) &&& 127 = n / 128 := by
        rw [shr_eq_div, and127_eq_mod]
        norm_num
        omega
      have hu : u29W n = [128 + n / 128, n % 128] := by
        unfold u29W
        rw [if_neg (by omega), if_pos (by omega), e1, or128_eq_add (by omega),
          and127_eq_mod]
      rw [hu]
      have hb0 : (pre ++ [128 + n / 128, n % 128] ++ rest).getD st.offset 0
          = 128 + n / 128 := by
        rw [ho, show pre.length = pre.length + 0 from rfl]
        rw [getD_concat pre _ rest 0 (by simp)]
        rfl
      have hb1 : (pre ++ [128 + n / 128, n % 128] ++ rest).getD
          (st.offset + 1) 0 = n % 128 := by
        rw [ho]
        rw [getD_concat pre _ rest 1 (by simp)]
        rfl
      simp only [readAmf3Integer, bump, hb0]
      rw [if_neg (by omega)]
      simp only [hb1]
      rw [if_pos (by omega)]
      have e3 : (128 + n / 128) &&& 127 = n / 128 := by rw [and127_eq_mod]; omega
      rw [Prod.mk.injEq]
      constructor
      · simp only [e3, shl_eq_mul]
        norm_num
        rw [or_mul128 (by omega)]
        omega
      · simp only [List.length_cons, List.length_nil]
    · rcases Nat.lt_or_ge n 2097152 with h3 | h3
      · have e1 : (n >>> 14) &&& 127 = n / 16384 := by
          rw [shr_eq_div, and127_eq_mod]
          norm_num
          omega
        have e2 : (n >>> 7) &&& 127 = (n / 128) % 128 := by
          rw [shr_eq_div, and127_eq_mod]
          norm_num
        have hu : u29W n = [128 + n / 16384, 128 + n / 128 % 128, n % 128] := by
          unfold u29W
          rw [if_neg (by omega), if_neg (by omega), if_pos (by omega), e1, e2,
            or128_eq_add (by omega), or128_eq_add (by omega), and127_eq_mod]
        rw [hu]
        have hb0 : (pre ++ [128 + n / 16384, 128 + n / 128 % 128, n % 128] ++ rest).getD
            st.offset 0 = 128 + n / 16384 := by
          rw [ho, show pre.length = pre.length + 0 from rfl]
          rw [getD_concat pre _ rest 0 (by simp)]
          rfl
        have hb1 : (pre ++ [128 + n / 16384, 128 + n / 128 % 128, n % 128] ++ rest).getD
            (st.offset + 1) 0 = 128 + n / 128 % 128 := by
          rw [ho]
          rw [getD_concat pre _ rest 1 (by simp)]
          rfl
        have hb2 : (pre ++ [128 + n / 16384, 128 + n / 128 % 128, n % 128] ++ rest).getD
            (st.offset + 1 + 1) 0 = n % 128 := by
          rw [ho, show pre.length + 1 + 1 = pre.length + 2 from rfl]
          rw [getD_concat pre _ rest 2 (by simp)]
          rfl
        simp only [readAmf3Integer, bump, hb0]
        rw [if_neg (by omega)]
        simp only [hb1]
        rw [if_neg (by omega)]
        simp only [hb2]
        rw [if_pos (by omega)]
        have e3 : (128 + n / 16384) &&& 127 = n / 16384 := by rw [and127_eq_mod]; omega
        have e4 : (128 + n / 128 % 128) &&& 127 = n / 128 % 128 := by
          rw [and127_eq_mod]; omega
        rw [Prod.mk.injEq]
        constructor
        · simp only [e3, e4, shl_eq_mul]
          norm_num
          rw [or_mul128 (by omega) (n / 16384)]
          have e5 : n / 16384 * 128 + n / 128 % 128 = n / 128 := by omega
          rw [e5, or_mul128 (by omega) (n / 128)]
          omega
        · simp only [List.length_cons, List.length_nil]
      · have e1 : (n >>> 22) &&& 127 = n / 4194304 := by
          rw [shr_eq_div, and127_eq_mod]
          norm_num
          omega
        have e2 : (n >>> 15) &&& 127 = (n / 32768) % 128 := by
          rw [shr_eq_div, and127_eq_mod]
          norm_num
        have e2b : (n >>> 8) &&& 127 = (n / 256) % 128 := by
          rw [shr_eq_div, and127_eq_mod]
          norm_num
        have hu : u29W n = [128 + n / 4194304, 128 + n / 32768 % 128,
            128 + n / 256 % 128, n % 256] := by
          unfold u29W
          rw [if_neg (by omega), if_neg (by omega), if_neg (by omega), e1, e2, e2b,
            or128_eq_add (by omega), or128_eq_add (by omega), or128_eq_add (by omega),
            and255_eq_mod]
        rw [hu]
        have hb0 : (pre ++ [128 + n / 4194304, 128 + n / 32768 % 128,
            128 + n / 256 % 128, n % 256] ++ rest).getD st.offset 0
            = 128 + n / 4194304 := by
          rw [ho, show pre.length = pre.length + 0 from rfl]
          rw [getD_concat pre _ rest 0 (by simp)]
          rfl
        have hb1 : (pre ++ [128 + n / 4194304, 128 + n / 32768 % 128,
            128 + n / 256 % 128, n % 256] ++ rest).getD (st.offset + 1) 0
            = 128 + n / 32768 % 128 := by
          rw [ho]
          rw [getD_concat pre _ rest 1 (by simp)]
          rfl
        have hb2 : (pre ++ [128 + n / 4194304, 128 + n / 32768 % 128,
            128 + n / 256 % 128, n % 256] ++ rest).getD (st.offset + 1 + 1) 0
            = 128 + n / 256 % 128 := by
          rw [ho, show pre.length + 1 + 1 = pre.length + 2 from rfl]
          rw [getD_concat pre _ rest 2 (by simp)]
          rfl
        have hb3 : (pre ++ [128 + n / 4194304, 128 + n / 32768 % 128,
            128 + n / 256 % 128, n % 256] ++ rest).getD (st.offset + 1 + 1 + 1) 0
            = n % 256 := by
          rw [ho, show pre.length + 1 + 1 + 1 = pre.length + 3 from rfl]
          rw [getD_concat pre _ rest 3 (by simp)]
          rfl
        simp only [readAmf3Integer, bump, hb0]
        rw [if_neg (by omega)]
        simp only [hb1]
        rw [if_neg (by omega)]
        simp only [hb2]
        rw [if_neg (by omega)]
        simp only [hb3]
        have e3 : (128 + n / 4194304) &&& 127 = n / 4194304 := by
          rw [and127_eq_mod]; omega
        have e4 : (128 + n / 32768 % 128) &&& 127 = n / 32768 % 128 := by
          rw [and127_eq_mod]; omega
        have e4b : (128 + n / 256 % 128) &&& 127 = n / 256 % 128 := by
          rw [and127_eq_mod]; omega
        rw [Prod.mk.injEq]
        constructor
        · simp only [e3, e4, e4b, shl_eq_mul]
          norm_num
          rw [or_mul128 (by omega) (n / 4194304)]
          have e5 : n / 4194304 * 128 + n / 32768 % 128 = n / 32768 := by omega
          rw [e5, or_mul128 (by omega) (n / 32768)]
          have e6 : n / 32768 * 128 + n / 256 % 128 = n / 256 := by omega
          rw [e6, or_mul256 (by omega) (n / 256)]
          omega
        · simp only [List.length_cons, List.length_nil]

/-- Bytes of an in-bounds buffer position are below 256. -/
theorem getD_lt_256 (buf : List Nat) (k : Nat) (hbytes : ∀ b ∈ buf, b < 256)
    (h : k < buf.length) : buf.getD k 0 < 256 := by
  rw [List.getD_eq_getElem?_getD, List.getElem?_eq_getElem h]
  exact hbytes _ (List.getElem_mem h)

/-- Accumulator bound for the first two U29 bytes. -/
theorem u29AccBound1 {a b : Nat} (ha : a < 128) (hb : b < 128) :
    (a <<< 7) ||| b < 16384 := by
  have h1 : a <<< 7 < 2 ^ 14 := by
    rw [shl_eq_mul]
    norm_num
    omega
  have h2 : b < 2 ^ 14 := by norm_num; omega
  have h3 := Nat.or_lt_two_pow h1 h2
  norm_num at h3
  exact h3

/-- Accumulator bound for the third U29 byte. -/
theorem u29AccBound2 {a b : Nat} (ha : a < 16384) (hb : b < 128) :
    (a <<< 7) ||| b < 2097152 := by
  have h1 : a <<< 7 < 2 ^ 21 := by
    rw [shl_eq_mul]
    norm_num
    omega
  have h2 : b < 2 ^ 21 := by norm_num; omega
  have h3 := Nat.or_lt_two_pow h1 h2
  norm_num at h3
  exact h3

/-- Accumulator bound for the final U29 byte. -/
theorem u29AccBound3 {a b : Nat} (ha : a < 2097152) (hb : b < 256) :
    (a <<< 8) ||| b < 536870912 := by
  have h1 : a <<< 8 < 2 ^ 29 := by
    rw [shl_eq_mul]
    norm_num
    omega
  have h2 : b < 2 ^ 29 := by norm_num; omega
  have h3 := Nat.or_lt_two_pow h1 h2
  norm_num at h3
  exact h3

/-- Claim C9: for every buffer of bytes and every starting offset with
enough bytes available, `readU29` returns an unsigned value in [0, 2^29)
and advances the offset by at least one and at most four bytes, stopping at
the first byte whose high bit is clear; and `readAmf3Integer` of lib/read.js
is structurally identical to it (same value, same consumption). -/
theorem c9_readU29_bounds (buf : List Nat) (off : Nat)
    (hbytes : ∀ b ∈ buf, b < 256)
    (hlen : off + u29Size buf off ≤ buf.length) :
    (readU29 buf off).1 < 2 ^ 29 ∧
    (readU29 buf off).2 = off + u29Size buf off ∧
    1 ≤ u29Size buf off ∧ u29Size buf off ≤ 4 ∧
    (∀ k, k + 1 < u29Size buf off → 128 ≤ buf.getD (off + k) 0) ∧
    (u29Size buf off < 4 → buf.getD (off + (u29Size buf off - 1)) 0 < 128) ∧
    (∀ st : RSt, st.offset = off →
      readAmf3Integer buf st = ((readU29 buf off).1, { st with offset := (readU29 buf off).2 })) := by
  have hand7 : ∀ x : Nat, x &&& 127 < 128 := by
    intro x
    have := Nat.and_le_right (n := x) (m := 127)
    omega
  by_cases hA : buf.getD off 0 < 128
  · have hs : u29Size buf off = 1 := by unfold u29Size; rw [if_pos hA]
    refine ⟨?_, ?_, ?_, ?_, ?_, ?_, ?_⟩
    · unfold readU29
      rw [if_pos hA]
      dsimp only
      omega
    · rw [hs]
      unfold readU29
      rw [if_pos hA]
    · omega
    · omega
    · intro k hk
      omega
    · intro _
      rw [hs]
      simpa using hA
    · intro st ho
      subst ho
      simp only [readU29, readAmf3Integer, bump]
      simp only [if_pos hA]
  · by_cases hB : buf.getD (off + 1) 0 < 128
    · have hs : u29Size buf off = 2 := by unfold u29Size; rw [if_neg hA, if_pos hB]
      refine ⟨?_, ?_, ?_, ?_, ?_, ?_, ?_⟩
      · unfold readU29
        rw [if_neg hA, if_pos hB]
        dsimp only
        have h1 := u29AccBound1 (hand7 (buf.getD off 0)) hB
        have h29 : (2 : Nat) ^ 29 = 536870912 := by norm_num
        rw [h29]
        omega
      · rw [hs]
        unfold readU29
        rw [if_neg hA, if_pos hB]
      · omega
      · omega
      · intro k hk
        rw [hs] at hk
        have hk0 : k = 0 := by omega
        subst hk0
        simpa using Nat.not_lt.mp hA
      · intro _
        rw [hs]
        simpa using hB
      · intro st ho
        subst ho
        simp only [readU29, readAmf3Integer, bump]
        simp only [if_neg hA, if_pos hB]
    · by_cases hC : buf.getD (off + 2) 0 < 128
      · have hs : u29Size buf off = 3 := by
          unfold u29Size
          rw [if_neg hA, if_neg hB, if_pos hC]
        have h3 := u29AccBound1 (hand7 (buf.getD off 0)) (hand7 (buf.getD (off + 1) 0))
        refine ⟨?_, ?_, ?_, ?_, ?_, ?_, ?_⟩
        · unfold readU29
          rw [if_neg hA, if_neg hB, if_pos hC]
          dsimp only
          have h6 := u29AccBound2 h3 hC
          have h29 : (2 : Nat) ^ 29 = 536870912 := by norm_num
          rw [h29]
          omega
        · rw [hs]
          unfold readU29
          rw [if_neg hA, if_neg hB, if_pos hC]
        · omega
        · omega
        · intro k hk
          rw [hs] at hk
          have hk01 : k = 0 ∨ k = 1 := by omega
          rcases hk01 with rfl | rfl
          · simpa using Nat.not_lt.mp hA
          · simpa using Nat.not_lt.mp hB
        · intro _
          rw [hs]
          simpa using hC
        · intro st ho
          subst ho
          simp only [readU29, readAmf3Integer, bump]
          simp only [if_neg hA, if_neg hB, if_pos hC]
      · have hs : u29Size buf off = 4 := by
          unfold u29Size
          rw [if_neg hA, if_neg hB, if_neg hC]
        have hb3 : buf.getD (off + 3) 0 < 256 := by
          apply getD_lt_256 buf _ hbytes
          omega
        have h3 := u29AccBound1 (hand7 (buf.getD off 0)) (hand7 (buf.getD (off + 1) 0))
        refine ⟨?_, ?_, ?_, ?_, ?_, ?_, ?_⟩
        · unfold readU29
          rw [if_neg hA, if_neg hB, if_neg hC]
          dsimp only
          have h6 := u29AccBound2 h3 (hand7 (buf.getD (off + 2) 0))
          have h7 := u29AccBound3 h6 hb3
          have h29 : (2 : Nat) ^ 29 = 536870912 := by norm_num
          rw [h29]
          omega
        · rw [hs]
          unfold readU29
          rw [if_neg hA, if_neg hB, if_neg hC]
        · omega
        · omega
        · intro k hk
          rw [hs] at hk
          have hk012 : k = 0 ∨ k = 1 ∨ k = 2 := by omega
          rcases hk012 with rfl | rfl | rfl
          · simpa using Nat.not_lt.mp hA
          · simpa using Nat.not_lt.mp hB
          · simpa using Nat.not_lt.mp hC
        · intro h4x
          omega
        · intro st ho
          subst ho
          simp only [readU29, readAmf3Integer, bump]
          simp only [if_neg hA, if_neg hB, if_neg hC]

/-- Witness for C9 at the spec boundary value 16384 (bytes 81 80 00). -/
theorem c9_readU29_bounds_witness :
    (∀ b ∈ [129, 128, 0], b < 256) ∧
    (0 + u29Size [129, 128, 0] 0 ≤ ([129, 128, 0] : List Nat).length) ∧
    ((readU29 [129, 128, 0] 0).1 < 2 ^ 29 ∧
     (readU29 [129, 128, 0] 0).2 = 0 + u29Size [129, 128, 0] 0 ∧
     1 ≤ u29Size [129, 128, 0] 0 ∧ u29Size [129, 128, 0] 0 ≤ 4 ∧
     (∀ k, k + 1 < u29Size [129, 128, 0] 0 → 128 ≤ ([129, 128, 0] : List Nat).getD (0 + k) 0) ∧
     (u29Size [129, 128, 0] 0 < 4 →
       ([129, 128, 0] : List Nat).getD (0 + (u29Size [129, 128, 0] 0 - 1)) 0 < 128) ∧
     (∀ st : RSt, st.offset = 0 →
       readAmf3Integer [129, 128, 0] st
         = ((readU29 [129, 128, 0] 0).1, { st with offset := (readU29 [129, 128, 0] 0).2 }))) :=
  ⟨by decide, by decide, c9_readU29_bounds [129, 128, 0] 0 (by decide) (by decide)⟩

/-!  Claim theorems for the failing inputs (C1 to C6). -/

/-- Claim C1 (round-trip law): the law `decode(encode(v, 3), 3) = v` fails
at the negative integer v = -1, which the spec admits for AMF3.  The
write.js AMF3 path classifies -1 as an Integer and then throws instead of
producing bytes, and the read.js decoder returns the unsigned 536870911
for the wire image 04 FF FF FF FF of -1 instead of sign-extending, so no
encoding/decoding pair in the module satisfies the law at -1. -/
theorem c1_roundtrip_fails_at_minus_one :
    getTypeAmf3 [] (.num (.intg (-1))) = .ok a3Integer ∧
    writeAmf3 5 [] (.num (.intg (-1))) initW = .error (.integerOutOfRange (-1)) ∧
    readAmf3 5 [0x04, 0xFF, 0xFF, 0xFF, 0xFF] (initRSt 0 3) none
      = .ok (.num (.intg 536870911), ⟨5, 3, [], [], [], [], []⟩) := by
  refine ⟨by decide, by decide, by decide⟩

/-- Claim C2 (Integer sign extension on decode): for the wire bytes
FF FF FF FF (U29 value 2^29 - 1, bit 28 set) the read.js `readAmf3Integer`
returns the unsigned 536870911 instead of the mandated -1; the scaffold
`AMF3Decoder._readInteger` does sign-extend and returns -1. -/
theorem c2_integer_decode_sign_extension :
    readAmf3Integer [0xFF, 0xFF, 0xFF, 0xFF] (initRSt 0 3)
      = (536870911, ⟨4, 3, [], [], [], [], []⟩) ∧
    sReadInteger [0xFF, 0xFF, 0xFF, 0xFF] initSSt = (-1, ⟨4, [], [], [], []⟩) := by
  refine ⟨by decide, by decide⟩

/-- Claim C3 (Integer encode of negatives): the write.js AMF3 path admits
-1 as an Integer and then `writeAmf3Integer` throws instead of writing the
low 29 bits; the scaffold `AMF3Encoder.encodeValue` masks as the claim
states, writing U29 0x1FFFFFFF for -1 and 0x10000000 for -2^28. -/
theorem c3_integer_encode_negative :
    writeAmf3 5 [] (.num (.intg (-1))) initW = .error (.integerOutOfRange (-1)) ∧
    encodeValue 5 [] (.num (.intg (-1))) initESt
      = .ok ⟨[0x04, 0xFF, 0xFF, 0xFF, 0xFF], [], []⟩ ∧
    encodeValue 5 [] (.num (.intg (-268435456))) initESt
      = .ok ⟨[0x04, 0xC0, 0x80, 0x80, 0x00], [], []⟩ := by
  refine ⟨by decide, by decide, by decide⟩

/-- Claim C4 (reference bounds): on the wire bytes 02 (string reference
with index 1 against an empty table) the read.js `readAmf3String` throws
the mandated hard error, but the scaffold `AMF3Decoder._readString`
performs no bounds check and successfully returns undefined. -/
theorem c4_reference_bounds :
    readAmf3String [0x02] (initRSt 0 3) = .error (.invalidStringRef 1) ∧
    sReadString [0x02] initSSt = (none, ⟨1, [], [], [], []⟩) := by
  refine ⟨by decide, by decide⟩

/-- Claim C5 (append before recursion): decoding the self-referential
array 09 03 01 09 00 (inline array of length one whose only element is
object reference 0), the read.js `readAmf3Array` appends the array to the
object table before reading its contents, so the inner reference resolves
to the array itself (a cycle); the scaffold `AMF3Decoder._readArray`
appends only after reading the contents, so the same reference finds an
empty table and the element decodes to undefined. -/
theorem c5_table_append_order :
    readAmf3 10 [0x09, 0x03, 0x01, 0x09, 0x00] (initRSt 0 3) none
      = .ok (.ref 0, ⟨5, 3, [.arr [.ref 0] []], [], [], [0], []⟩) ∧
    sReadValue 10 [0x09, 0x03, 0x01, 0x09, 0x00] initSSt
      = .ok (.ref 0, ⟨5, [.arr [.undef] []], [], [0], []⟩) := by
  refine ⟨by decide, by decide⟩

/-- Claim C6 (externalizable is a hard error): decoding the externalizable
object 0A 07 01 (inline trait, externalizable bit set, empty class name),
the read.js `readAmf3Object` returns a partially decoded object flagged
`__externalizable__` instead of failing; the scaffold throws, and with the
name ExternalizableNotImplemented rather than the mandated
ExternalizableNotRegistered (no registry exists in the code). -/
theorem c6_externalizable_decode :
    readAmf3 10 [0x0A, 0x07, 0x01] (initRSt 0 3) none
      = .ok (.ref 0,
          ⟨3, 3, [.obj [(keyExternalizable, .bool true)]], [], [], [0],
            [⟨[], [], true, false⟩]⟩) ∧
    sReadValue 10 [0x0A, 0x07, 0x01] initSSt
      = .error (.externalizableNotImplemented []) := by
  refine ⟨by decide, by decide⟩

/-!  List and table helper lemmas. -/

theorem jsIndexOf_some_lt {α : Type} [DecidableEq α] {l : List α} {x : α} {i : Nat}
    (h : jsIndexOf l x = some i) : i < l.length := by
  induction l generalizing i with
  | nil => simp [jsIndexOf] at h
  | cons a rest ih =>
    unfold jsIndexOf at h
    by_cases ha : a = x
    · rw [if_pos ha] at h
      cases h
      simp
    · rw [if_neg ha] at h
      cases hrec : jsIndexOf rest x with
      | none => rw [hrec] at h; cases h
      | some j =>
        rw [hrec] at h
        cases h
        have := ih hrec
        simp
        omega

theorem jsIndexOf_some_getD {α : Type} [DecidableEq α] {l : List α} {x : α} {i : Nat}
    (h : jsIndexOf l x = some i) (d : α) : l.getD i d = x := by
  induction l generalizing i with
  | nil => simp [jsIndexOf] at h
  | cons a rest ih =>
    unfold jsIndexOf at h
    by_cases ha : a = x
    · rw [if_pos ha] at h
      cases h
      simpa using ha
    · rw [if_neg ha] at h
      cases hrec : jsIndexOf rest x with
      | none => rw [hrec] at h; cases h
      | some j =>
        rw [hrec] at h
        cases h
        simpa using ih hrec

theorem setAssoc_fresh (l : List (JsStr × HVal)) (k : JsStr) (v : HVal)
    (h : ∀ p ∈ l, p.1 ≠ k) : setAssoc l k v = l ++ [(k, v)] := by
  induction l with
  | nil => rfl
  | cons p rest ih =>
    unfold setAssoc
    rw [if_neg (h p (by simp))]
    rw [ih (fun q hq => h q (by simp [hq]))]
    simp

theorem stringChunk_table_len (T : List JsStr) (s : JsStr) :
    (stringChunk T s).2.length ≤ T.length + 1 := by
  unfold stringChunk
  cases jsIndexOf T s with
  | some i => simp
  | none =>
    by_cases hs : s = []
    · simp [hs]
    · simp [hs]

theorem primChunk_table_len (T : List JsStr) (p : Prim) :
    (primChunk T p).2.length ≤ T.length + 1 := by
  cases p <;> simp [primChunk]
  exact stringChunk_table_len T _

theorem chunkSeq_table_len (names : List JsStr) (T : List JsStr) :
    (chunkSeq T names).2.length ≤ T.length + names.length := by
  induction names generalizing T with
  | nil => simp [chunkSeq]
  | cons s rest ih =>
    unfold chunkSeq
    have h1 := stringChunk_table_len T s
    have h2 := ih (stringChunk T s).2
    simp only [List.length_cons]
    omega

theorem primChunkSeq_table_len (ps : List Prim) (T : List JsStr) :
    (primChunkSeq T ps).2.length ≤ T.length + ps.length := by
  induction ps generalizing T with
  | nil => simp [primChunkSeq]
  | cons p rest ih =>
    unfold primChunkSeq
    have h1 := primChunk_table_len T p
    have h2 := ih (primChunk T p).2
    simp only [List.length_cons]
    omega

theorem pairChunkSeq_table_len (ps : List (JsStr × Prim)) (T : List JsStr) :
    (pairChunkSeq T ps).2.length ≤ T.length + 2 * ps.length := by
  induction ps generalizing T with
  | nil => simp [pairChunkSeq]
  | cons p rest ih =>
    unfold pairChunkSeq
    have h1 := stringChunk_table_len T p.1
    have h2 := primChunk_table_len (stringChunk T p.1).2 p.2
    have h3 := ih (primChunk (stringChunk T p.1).2 p.2).2
    simp only [List.length_cons]
    omega

/-!  String chunk lemmas: the writer emits exactly `stringChunk`, and the
reader consumes exactly `stringChunk`, recovering the string. -/

theorem writeAmf3IntegerE_ok (n : Nat) (h : n < 536870912) (st : WSt) :
    writeAmf3IntegerE (n : Int) st = .ok (emit st (u29W n)) := by
  unfold writeAmf3IntegerE
  rw [if_neg (by omega)]
  norm_num

theorem writeAmf3StringFn_chunk (s : JsStr) (st : WSt)
    (hs : s.length < 268435456) (hT : st.strRefs.length < 268435456) :
    writeAmf3StringFn s st
      = .ok { st with out := st.out ++ (stringChunk st.strRefs s).1,
                      strRefs := (stringChunk st.strRefs s).2 } := by
  unfold writeAmf3StringFn stringChunk
  cases hidx : jsIndexOf st.strRefs s with
  | some i =>
    dsimp only
    have hi : i < st.strRefs.length := jsIndexOf_some_lt hidx
    have hb : i <<< 1 < 536870912 := by
      rw [shl_eq_mul]
      norm_num
      omega
    rw [writeAmf3IntegerE_ok _ hb]
    simp [emit]
  | none =>
    dsimp only
    by_cases hse : s = []
    · rw [if_pos hse, if_pos hse]
      have hb : (1 : Nat) < 536870912 := by norm_num
      have := writeAmf3IntegerE_ok 1 hb st
      norm_num at this ⊢
      rw [this]
      simp [emit]
    · rw [if_neg hse, if_neg hse]
      have hb : (s.length <<< 1) ||| 1 < 536870912 := by
        rw [or_shl1_one]
        omega
      rw [writeAmf3IntegerE_ok _ hb]
      simp [emit, List.append_assoc]

theorem readAmf3String_chunk (s : JsStr) (T : List JsStr) (pre rest : List Nat)
    (st : RSt) (ho : st.offset = pre.length) (hT : st.strRefs = T)
    (hs : s.length < 268435456) (hTlen : T.length < 268435456) :
    readAmf3String (pre ++ (stringChunk T s).1 ++ rest) st
      = .ok (s, { st with offset := pre.length + (stringChunk T s).1.length,
                          strRefs := (stringChunk T s).2 }) := by
  unfold stringChunk
  cases hidx : jsIndexOf T s with
  | some i =>
    dsimp only
    have hi : i < T.length := jsIndexOf_some_lt hidx
    have hb : i <<< 1 < 2 ^ 29 := by
      rw [shl_eq_mul]
      norm_num
      omega
    unfold readAmf3String
    rw [readAmf3Integer_u29W _ hb pre rest st ho]
    dsimp only [bump]
    have heven : (i <<< 1) &&& 1 = 0 := by
      rw [and_one_eq_mod, shl_eq_mul]
      omega
    rw [heven, if_pos rfl]
    have hshr : (i <<< 1) >>> 1 = i := by
      rw [shl_eq_mul, shr_eq_div]
      omega
    rw [hshr, hT]
    rw [if_neg (by omega)]
    rw [jsIndexOf_some_getD hidx]
    rw [ho]
  | none =>
    dsimp only
    by_cases hse : s = []
    · rw [if_pos hse]
      subst hse
      unfold readAmf3String
      rw [readAmf3Integer_u29W 1 (by norm_num) pre rest st ho]
      dsimp only [bump]
      rw [if_neg (by decide)]
      rw [show (1 : Nat) >>> 1 = 0 from rfl, if_pos rfl]
      rw [ho, hT]
    · rw [if_neg hse]
      have hb : (s.length <<< 1) ||| 1 < 2 ^ 29 := by
        rw [or_shl1_one]
        norm_num
        omega
      have hassoc : pre ++ (u29W ((s.length <<< 1) ||| 1) ++ s) ++ rest
          = pre ++ u29W ((s.length <<< 1) ||| 1) ++ (s ++ rest) := by
        simp [List.append_assoc]
      rw [hassoc]
      unfold readAmf3String
      rw [readAmf3Integer_u29W _ hb pre (s ++ rest) st ho]
      dsimp only [bump]
      have hodd : ((s.length <<< 1) ||| 1) &&& 1 = 1 := by
        rw [or_shl1_one, and_one_eq_mod]
        omega
      rw [hodd]
      rw [if_neg (by omega)]
      have hlen : ((s.length <<< 1) ||| 1) >>> 1 = s.length := by
        rw [or_shl1_one, shr_eq_div]
        omega
      rw [hlen]
      rw [if_neg (by simpa using hse)]
      rw [ho]
      have hdrop : (List.drop (pre.length + (u29W ((s.length <<< 1) ||| 1)).length)
          (pre ++ u29W ((s.length <<< 1) ||| 1) ++ (s ++ rest))).take s.length = s := by
        rw [show pre ++ u29W ((s.length <<< 1) ||| 1) ++ (s ++ rest)
            = (pre ++ u29W ((s.length <<< 1) ||| 1)) ++ (s ++ rest) from by
          simp [List.append_assoc]]
        rw [show pre.length + (u29W ((s.length <<< 1) ||| 1)).length
            = (pre ++ u29W ((s.length <<< 1) ||| 1)).length from by simp]
        rw [List.drop_left]
        exact List.take_left s rest
      rw [hdrop, hT]
      have hL : (u29W ((s.length <<< 1) ||| 1) ++ s).length
          = (u29W ((s.length <<< 1) ||| 1)).length + s.length := by
        simp
      rw [hL]
      rw [show pre.length + ((u29W ((s.length <<< 1) ||| 1)).length + s.length)
          = pre.length + (u29W ((s.length <<< 1) ||| 1)).length + s.length from by omega]

/-!  Primitive value lemmas: one writer step emits `primChunk`, one reader
step consumes it and recovers the value. -/

theorem writeAmf3_prim (f : Nat) (heap : List HNode) (p : Prim) (st : WSt)
    (hp : primOKb p = true) (hT : st.strRefs.length < 268435456) :
    writeAmf3 (f + 1) heap (primVal p) st
      = .ok { st with out := st.out ++ (primChunk st.strRefs p).1,
                      strRefs := (primChunk st.strRefs p).2 } := by
  cases p with
  | pundef =>
    simp [writeAmf3, getTypeAmf3, a3Undefined, a3Null, a3False, a3True, emit,
      primChunk, primVal]
  | pnull =>
    simp [writeAmf3, getTypeAmf3, a3Undefined, a3Null, a3False, a3True, emit,
      primChunk, primVal]
  | pbool b =>
    cases b <;>
      simp [writeAmf3, getTypeAmf3, a3Undefined, a3Null, a3False, a3True, emit,
        primChunk, primVal]
  | pint n =>
    have hn : 0 ≤ n ∧ n < 268435456 := by
      simpa [primOKb] using hp
    simp only [writeAmf3, getTypeAmf3, primVal]
    rw [if_pos (by omega)]
    simp only [a3Integer, a3Undefined, a3Null, a3False, a3True]
    norm_num
    unfold writeAmf3IntegerE
    rw [if_neg (by omega)]
    simp [emit, primChunk]
  | pstr s =>
    have hsl : s.length < 268435456 := by
      simpa [primOKb] using hp
    simp only [writeAmf3, getTypeAmf3, primVal]
    simp only [a3String, a3Undefined, a3Null, a3False, a3True, a3Integer, a3Double]
    norm_num
    rw [writeAmf3StringFn_chunk s (emit st [6]) hsl (by simpa [emit] using hT)]
    simp [emit, primChunk]

theorem readAmf3_prim (f : Nat) (p : Prim) (T : List JsStr) (pre rest : List Nat)
    (st : RSt) (ho : st.offset = pre.length) (hT : st.strRefs = T)
    (hp : primOKb p = true) (hTlen : T.length < 268435456) :
    readAmf3 (f + 1) (pre ++ (primChunk T p).1 ++ rest) st none
      = .ok (primVal p, { st with offset := pre.length + (primChunk T p).1.length,
                                  strRefs := (primChunk T p).2 }) := by
  have hmark : ∀ m : Nat, ∀ tail : List Nat,
      (pre ++ (m :: tail) ++ rest).getD st.offset 0 = m := by
    intro m tail
    rw [ho, show pre.length = pre.length + 0 from rfl]
    rw [getD_concat pre (m :: tail) rest 0 (by simp)]
    rfl
  cases p with
  | pundef =>
    simp only [primChunk, primVal]
    simp only [readAmf3, hmark 0x00 []]
    rw [if_pos (by decide)]
    simp [bump, ho, hT]
  | pnull =>
    simp only [primChunk, primVal]
    simp only [readAmf3, hmark 0x01 []]
    rw [if_neg (by decide), if_pos (by decide)]
    simp [bump, ho, hT]
  | pbool b =>
    cases b with
    | false =>
      have hc : primChunk T (Prim.pbool false) = ([0x02], T) := by
        simp [primChunk]
      rw [hc]
      simp only [primVal]
      simp only [readAmf3, hmark 0x02 []]
      rw [if_neg (by decide), if_neg (by decide), if_pos (by decide)]
      simp [bump, ho, hT]
    | true =>
      have hc : primChunk T (Prim.pbool true) = ([0x03], T) := by
        simp [primChunk]
      rw [hc]
      simp only [primVal]
      simp only [readAmf3, hmark 0x03 []]
      rw [if_neg (by decide), if_neg (by decide),
        if_neg (by decide), if_pos (by decide)]
      simp [bump, ho, hT]
  | pint n =>
    have hn : 0 ≤ n ∧ n < 268435456 := by
      simpa [primOKb] using hp
    simp only [primChunk, primVal]
    simp only [readAmf3, hmark 0x04 (u29W n.toNat)]
    rw [if_neg (by decide), if_neg (by decide),
      if_neg (by decide), if_neg (by decide), if_pos (by decide)]
    have hassoc : pre ++ (4 :: u29W n.toNat) ++ rest
        = (pre ++ [4]) ++ u29W n.toNat ++ rest := by
      simp
    rw [hassoc]
    have hb : n.toNat < 2 ^ 29 := by
      norm_num
      omega
    rw [readAmf3Integer_u29W n.toNat hb (pre ++ [4]) rest (bump st 1)
      (by simp [bump, ho])]
    have hcast : ((n.toNat : Nat) : Int) = n := by omega
    rw [hcast]
    simp [bump, ho, hT]
    try omega
  | pstr s =>
    have hsl : s.length < 268435456 := by
      simpa [primOKb] using hp
    simp only [primChunk, primVal]
    simp only [readAmf3, hmark 0x06 (stringChunk T s).1]
    rw [if_neg (by decide), if_neg (by decide),
      if_neg (by decide), if_neg (by decide),
      if_neg (by decide), if_neg (by decide), if_pos (by decide)]
    have hassoc : pre ++ (6 :: (stringChunk T s).1) ++ rest
        = (pre ++ [6]) ++ (stringChunk T s).1 ++ rest := by
      simp
    rw [hassoc]
    rw [readAmf3String_chunk s T (pre ++ [6]) rest (bump st 1)
      (by simp [bump, ho]) (by simp [bump, hT]) hsl hTlen]
    simp [bump, ho]
    try omega

/-!  Name-sequence lemmas: the writer property-name loop emits `chunkSeq`,
and the reader trait-name loop consumes it, recovering the names. -/

theorem writePropNames_chunkSeq (names : List JsStr) (st : WSt)
    (hAll : ∀ s ∈ names, s.length < 268435456)
    (hT : st.strRefs.length + names.length ≤ 268435456) :
    writePropNames names st
      = .ok { st with out := st.out ++ (chunkSeq st.strRefs names).1,
                      strRefs := (chunkSeq st.strRefs names).2 } := by
  induction names generalizing st with
  | nil => simp [writePropNames, chunkSeq]
  | cons s rest ih =>
    unfold writePropNames chunkSeq
    rw [writeAmf3StringFn_chunk s st (hAll s (by simp)) (by simp at hT; omega)]
    dsimp only
    have hT2 : (stringChunk st.strRefs s).2.length + rest.length ≤ 268435456 := by
      have := stringChunk_table_len st.strRefs s
      simp at hT
      omega
    rw [ih _ (fun x hx => hAll x (by simp [hx])) hT2]
    simp [List.append_assoc]

theorem readTraitNames_chunkSeq (names : List JsStr) (acc : List JsStr)
    (T : List JsStr) (pre rest : List Nat) (st : RSt)
    (ho : st.offset = pre.length) (hT : st.strRefs = T)
    (hAll : ∀ s ∈ names, s.length < 268435456)
    (hTlen : T.length + names.length ≤ 268435456) :
    readTraitNames (pre ++ (chunkSeq T names).1 ++ rest) names.length st acc
      = .ok (acc ++ names,
          { st with offset := pre.length + (chunkSeq T names).1.length,
                    strRefs := (chunkSeq T names).2 }) := by
  induction names generalizing acc T pre st with
  | nil =>
    simp only [List.length_nil, chunkSeq, readTraitNames]
    rw [← hT, show pre.length + 0 = st.offset from by omega]
    simp
  | cons s rest2 ih =>
    simp only [List.length_cons, chunkSeq]
    unfold readTraitNames
    have hB1 : pre ++ ((stringChunk T s).1 ++ (chunkSeq (stringChunk T s).2 rest2).1) ++ rest
        = pre ++ (stringChunk T s).1 ++ ((chunkSeq (stringChunk T s).2 rest2).1 ++ rest) := by
      simp
    rw [hB1]
    rw [readAmf3String_chunk s T pre _ st ho hT (hAll s (by simp)) (by simp at hTlen; omega)]
    dsimp only
    have hB2 : pre ++ (stringChunk T s).1 ++ ((chunkSeq (stringChunk T s).2 rest2).1 ++ rest)
        = (pre ++ (stringChunk T s).1) ++ (chunkSeq (stringChunk T s).2 rest2).1 ++ rest := by
      simp
    rw [hB2]
    have hT2 : (stringChunk T s).2.length + rest2.length ≤ 268435456 := by
      have := stringChunk_table_len T s
      simp at hTlen
      omega
    rw [ih (acc ++ [s]) (stringChunk T s).2 (pre ++ (stringChunk T s).1) _
      (by simp) (by simp) (fun x hx => hAll x (by simp [hx])) hT2]
    simp
    omega

/-!  Heap and property-list helpers for the value folds. -/

theorem jsGetProp_cons_self (k : JsStr) (v : HVal) (l : List (JsStr × HVal)) :
    jsGetProp ((k, v) :: l) k = v := by
  simp [jsGetProp, List.find?]

theorem get?_set_self {α : Type} (l : List α) (i : Nat) (a : α) (h : i < l.length) :
    (l.set i a).get? i = some a := by
  induction l generalizing i with
  | nil => simp at h
  | cons b rest ih =>
    cases i with
    | zero => rfl
    | succ j =>
      simp only [List.set_cons_succ, List.get?_cons_succ]
      exact ih j (by simpa using h)

theorem set_get_id {α : Type} (l : List α) (i : Nat) (a : α)
    (h : l.get? i = some a) : l.set i a = l := by
  induction l generalizing i with
  | nil => simp at h
  | cons b rest ih =>
    cases i with
    | zero =>
      simp only [List.get?_cons_zero, Option.some.injEq] at h
      simp [h]
    | succ j =>
      simp only [List.get?_cons_succ] at h
      simp [ih j h]

theorem get?_some_lt {α : Type} {l : List α} {i : Nat} {a : α}
    (h : l.get? i = some a) : i < l.length := by
  by_contra hc
  rw [List.get?_eq_none.mpr (by omega)] at h
  cases h

theorem setObjPropH_obj (h : List HNode) (i : Nat) (k : JsStr) (v : HVal)
    (P : List (JsStr × HVal)) (hh : h.get? i = some (.obj P)) :
    setObjPropH h i k v = h.set i (.obj (setAssoc P k v)) := by
  unfold setObjPropH
  rw [hh]

/-!  Value-fold lemmas: the writer property-value loop emits the
`primChunkSeq` of the looked-up values, and the reader sealed-value loop
consumes it, assigning the values in declared order. -/

theorem writePropValues_chunk (f : Nat) (heap : List HNode)
    (props : List (JsStr × HVal)) (ps : List (JsStr × Prim)) (st : WSt)
    (hlook : ∀ p ∈ ps, jsGetProp props p.1 = primVal p.2)
    (hOK : ∀ p ∈ ps, primOKb p.2 = true)
    (hT : st.strRefs.length + ps.length ≤ 268435456)
    (hf : ps.length < f) :
    writePropValues f heap props (ps.map Prod.fst) st
      = .ok { st with out := st.out ++ (primChunkSeq st.strRefs (ps.map Prod.snd)).1,
                      strRefs := (primChunkSeq st.strRefs (ps.map Prod.snd)).2 } := by
  induction ps generalizing f st with
  | nil =>
    cases f with
    | zero => omega
    | succ g => simp [writePropValues, primChunkSeq]
  | cons p rest ih =>
    cases f with
    | zero => omega
    | succ g =>
      cases g with
      | zero => simp at hf
      | succ g2 =>
        simp only [List.map_cons, primChunkSeq]
        unfold writePropValues
        rw [hlook p (by simp)]
        rw [writeAmf3_prim g2 heap p.2 st (hOK p (by simp)) (by simp at hT; omega)]
        dsimp only
        have hT2 : (primChunk st.strRefs p.2).2.length + rest.length ≤ 268435456 := by
          have := primChunk_table_len st.strRefs p.2
          simp at hT
          omega
        rw [ih (g2 + 1) _ (fun x hx => hlook x (by simp [hx]))
          (fun x hx => hOK x (by simp [hx])) hT2 (by simp at hf; omega)]
        simp [List.append_assoc]

theorem readSealedValues_chunk (f : Nat) (ps : List (JsStr × Prim))
    (T : List JsStr) (pre rest : List Nat) (st : RSt) (i : Nat)
    (P0 : List (JsStr × HVal))
    (hheap : st.heap.get? i = some (.obj P0))
    (hfresh : ∀ p ∈ ps, ∀ q ∈ P0, q.1 ≠ p.1)
    (hnd : (ps.map Prod.fst).Nodup)
    (ho : st.offset = pre.length) (hT : st.strRefs = T)
    (hOK : ∀ p ∈ ps, primOKb p.2 = true)
    (hTlen : T.length + ps.length ≤ 268435456)
    (hf : ps.length < f) :
    readSealedValues f (pre ++ (primChunkSeq T (ps.map Prod.snd)).1 ++ rest) st i
        (ps.map Prod.fst)
      = .ok { st with
          offset := pre.length + (primChunkSeq T (ps.map Prod.snd)).1.length,
          strRefs := (primChunkSeq T (ps.map Prod.snd)).2,
          heap := st.heap.set i (.obj (P0 ++ ps.map (fun p => (p.1, primVal p.2)))) } := by
  induction ps generalizing f T pre st P0 with
  | nil =>
    cases f with
    | zero => omega
    | succ g =>
      simp only [List.map_nil, primChunkSeq, readSealedValues]
      rw [← hT, show pre.length + ([] : List Nat).length = st.offset from by simp [ho]]
      rw [show (P0 ++ []) = P0 from by simp]
      rw [set_get_id st.heap i (.obj P0) hheap]
  | cons p rest2 ih =>
    cases f with
    | zero => omega
    | succ g =>
      cases g with
      | zero => simp at hf
      | succ g2 =>
        simp only [List.map_cons, primChunkSeq]
        unfold readSealedValues
        have hB1 : pre ++ ((primChunk T p.2).1
              ++ (primChunkSeq (primChunk T p.2).2 (rest2.map Prod.snd)).1) ++ rest
            = pre ++ (primChunk T p.2).1
              ++ ((primChunkSeq (primChunk T p.2).2 (rest2.map Prod.snd)).1 ++ rest) := by
          simp
        rw [hB1]
        rw [readAmf3_prim g2 p.2 T pre _ st ho hT (hOK p (by simp))
          (by simp at hTlen; omega)]
        dsimp only
        rw [setObjPropH_obj _ i p.1 (primVal p.2) P0 hheap]
        rw [setAssoc_fresh P0 p.1 (primVal p.2) (fun q hq => hfresh p (by simp) q hq)]
        have hB2 : pre ++ (primChunk T p.2).1
              ++ ((primChunkSeq (primChunk T p.2).2 (rest2.map Prod.snd)).1 ++ rest)
            = (pre ++ (primChunk T p.2).1)
              ++ (primChunkSeq (primChunk T p.2).2 (rest2.map Prod.snd)).1 ++ rest := by
          simp
        rw [hB2]
        have hlen : i < st.heap.length := get?_some_lt hheap
        have hT2 : (primChunk T p.2).2.length + rest2.length ≤ 268435456 := by
          have := primChunk_table_len T p.2
          simp at hTlen
          omega
        rw [List.map_cons, List.nodup_cons] at hnd
        have hndr : (rest2.map Prod.fst).Nodup := hnd.2
        have hkfresh : ∀ x ∈ rest2, ∀ q ∈ P0 ++ [(p.1, primVal p.2)], q.1 ≠ x.1 := by
          intro x hx q hq
          simp at hq
          rcases hq with hq | hq
          · exact hfresh x (by simp [hx]) q hq
          · rw [hq]
            show p.1 ≠ x.1
            intro he
            exact hnd.1 (by rw [he]; exact List.mem_map_of_mem Prod.fst hx)
        rw [ih (g2 + 1) (primChunk T p.2).2 (pre ++ (primChunk T p.2).1) _
          (P0 ++ [(p.1, primVal p.2)])
          (by rw [get?_set_self _ _ _ hlen])
          hkfresh hndr (by simp) (by simp) (fun x hx => hOK x (by simp [hx]))
          hT2 (by simp at hf; omega)]
        rw [List.set_set]
        simp [List.append_assoc]
        omega

/-!  Further heap and lookup helpers. -/

theorem setObjPropH_arr (h : List HNode) (i : Nat) (k : JsStr) (v : HVal)
    (D : List HVal) (A : List (JsStr × HVal)) (hh : h.get? i = some (.arr D A)) :
    setObjPropH h i k v = h.set i (.arr D (setAssoc A k v)) := by
  unfold setObjPropH
  rw [hh]

theorem pushDenseH_arr (h : List HNode) (i : Nat) (v : HVal)
    (D : List HVal) (A : List (JsStr × HVal)) (hh : h.get? i = some (.arr D A)) :
    pushDenseH h i v = h.set i (.arr (D ++ [v]) A) := by
  unfold pushDenseH
  rw [hh]

theorem jsGetProp_cons_ne (k k2 : JsStr) (v : HVal) (l : List (JsStr × HVal))
    (h : k2 ≠ k) : jsGetProp ((k2, v) :: l) k = jsGetProp l k := by
  simp [jsGetProp, List.find?, h]

theorem jsGetProp_append_fresh (l1 l2 : List (JsStr × HVal)) (k : JsStr)
    (h : ∀ q ∈ l1, q.1 ≠ k) : jsGetProp (l1 ++ l2) k = jsGetProp l2 k := by
  induction l1 with
  | nil => simp
  | cons q rest ih =>
    rw [List.cons_append, show q = (q.1, q.2) from rfl,
      jsGetProp_cons_ne k q.1 q.2 (rest ++ l2) (h q (by simp))]
    exact ih (fun x hx => h x (by simp [hx]))

theorem jsGetProp_map_self (ps : List (JsStr × Prim))
    (hnd : (ps.map Prod.fst).Nodup) (p : JsStr × Prim) (hp : p ∈ ps) :
    jsGetProp (ps.map (fun q => (q.1, primVal q.2))) p.1 = primVal p.2 := by
  induction ps with
  | nil => simp at hp
  | cons q rest ih =>
    rw [List.map_cons, List.nodup_cons] at hnd
    rcases List.mem_cons.mp hp with hq | hq
    · rw [hq]
      simp only [List.map_cons]
      exact jsGetProp_cons_self q.1 (primVal q.2) _
    · simp only [List.map_cons]
      rw [jsGetProp_cons_ne p.1 q.1 (primVal q.2) _
        (fun he => hnd.1 (by rw [he]; exact List.mem_map_of_mem Prod.fst hq))]
      exact ih hnd.2 hq

theorem getD_append_head {α : Type} (l : List α) (x : α) (r : List α) (d : α) :
    (l ++ x :: r).getD l.length d = x := by
  induction l with
  | nil => rfl
  | cons a rest ih => simpa using ih

/-!  Terminator lemmas: the dynamic-property and associative-key loops read
one empty-string chunk and stop. -/

theorem readDynamicProps_term (f : Nat) (T : List JsStr) (pre rest : List Nat)
    (st : RSt) (i : Nat) (ho : st.offset = pre.length) (hT : st.strRefs = T)
    (hTlen : T.length < 268435456) :
    readDynamicProps (f + 1) (pre ++ (stringChunk T []).1 ++ rest) st i
      = .ok { st with offset := pre.length + (stringChunk T []).1.length,
                      strRefs := (stringChunk T []).2 } := by
  unfold readDynamicProps
  rw [readAmf3String_chunk [] T pre rest st ho hT (by norm_num) hTlen]
  dsimp only
  rw [if_pos rfl]

theorem readAmf3ArrayAssoc_term (f : Nat) (T : List JsStr) (pre rest : List Nat)
    (st : RSt) (i : Nat) (ho : st.offset = pre.length) (hT : st.strRefs = T)
    (hTlen : T.length < 268435456) :
    readAmf3ArrayAssoc (f + 1) (pre ++ (stringChunk T []).1 ++ rest) st i
      = .ok { st with offset := pre.length + (stringChunk T []).1.length,
                      strRefs := (stringChunk T []).2 } := by
  unfold readAmf3ArrayAssoc
  rw [readAmf3String_chunk [] T pre rest st ho hT (by norm_num) hTlen]
  dsimp only
  rw [if_pos rfl]

/-!  Associative-pair lemmas: the writer pair loop emits `pairChunkSeq`
(raw string keys, no marker), the reader assoc loop consumes it plus the
empty-string terminator, accumulating the pairs on the array node. -/

theorem writeAssocPairs_chunk (f : Nat) (heap : List HNode)
    (assoc : List (JsStr × HVal)) (ps : List (JsStr × Prim)) (st : WSt)
    (hlook : ∀ p ∈ ps, jsGetProp assoc p.1 = primVal p.2)
    (hklen : ∀ p ∈ ps, p.1.length < 268435456)
    (hOK : ∀ p ∈ ps, primOKb p.2 = true)
    (hT : st.strRefs.length + 2 * ps.length ≤ 268435456)
    (hf : ps.length < f) :
    writeAssocPairs f heap assoc (ps.map Prod.fst) st
      = .ok { st with out := st.out ++ (pairChunkSeq st.strRefs ps).1,
                      strRefs := (pairChunkSeq st.strRefs ps).2 } := by
  induction ps generalizing f st with
  | nil =>
    cases f with
    | zero => omega
    | succ g => simp [writeAssocPairs, pairChunkSeq]
  | cons p rest ih =>
    cases f with
    | zero => omega
    | succ g =>
      cases g with
      | zero => simp at hf
      | succ g2 =>
        simp only [List.map_cons, pairChunkSeq]
        unfold writeAssocPairs
        rw [writeAmf3StringFn_chunk p.1 st (hklen p (by simp)) (by simp at hT; omega)]
        dsimp only
        rw [hlook p (by simp)]
        have hT1 : (stringChunk st.strRefs p.1).2.length < 268435456 := by
          have := stringChunk_table_len st.strRefs p.1
          simp at hT
          omega
        rw [writeAmf3_prim g2 heap p.2 _ (hOK p (by simp)) (by simpa using hT1)]
        dsimp only
        have hT2 : (primChunk (stringChunk st.strRefs p.1).2 p.2).2.length
            + 2 * rest.length ≤ 268435456 := by
          have h1 := stringChunk_table_len st.strRefs p.1
          have h2 := primChunk_table_len (stringChunk st.strRefs p.1).2 p.2
          simp at hT
          omega
        rw [ih (g2 + 1) _ (fun x hx => hlook x (by simp [hx]))
          (fun x hx => hklen x (by simp [hx])) (fun x hx => hOK x (by simp [hx]))
          (by simpa using hT2) (by simp at hf; omega)]
        simp [List.append_assoc]

theorem readAmf3ArrayAssoc_chunk (f : Nat) (ps : List (JsStr × Prim))
    (T : List JsStr) (pre rest : List Nat) (st : RSt) (i : Nat)
    (D0 : List HVal) (A0 : List (JsStr × HVal))
    (hheap : st.heap.get? i = some (.arr D0 A0))
    (hfresh : ∀ p ∈ ps, ∀ q ∈ A0, q.1 ≠ p.1)
    (hnd : (ps.map Prod.fst).Nodup)
    (hne : ∀ p ∈ ps, p.1 ≠ [])
    (ho : st.offset = pre.length) (hT : st.strRefs = T)
    (hklen : ∀ p ∈ ps, p.1.length < 268435456)
    (hOK : ∀ p ∈ ps, primOKb p.2 = true)
    (hTlen : T.length + 2 * ps.length < 268435456)
    (hf : ps.length < f) :
    readAmf3ArrayAssoc f
        (pre ++ (pairChunkSeq T ps).1
          ++ ((stringChunk (pairChunkSeq T ps).2 []).1 ++ rest)) st i
      = .ok { st with
          offset := pre.length + (pairChunkSeq T ps).1.length
            + (stringChunk (pairChunkSeq T ps).2 []).1.length,
          strRefs := (stringChunk (pairChunkSeq T ps).2 []).2,
          heap := st.heap.set i
            (.arr D0 (A0 ++ ps.map (fun p => (p.1, primVal p.2)))) } := by
  induction ps generalizing f T pre st A0 with
  | nil =>
    cases f with
    | zero => omega
    | succ g =>
      simp only [List.map_nil, pairChunkSeq]
      rw [show pre ++ [] ++ ((stringChunk T []).1 ++ rest)
          = pre ++ (stringChunk T []).1 ++ rest from by simp]
      rw [readAmf3ArrayAssoc_term g T pre rest st i ho hT (by omega)]
      rw [show (A0 ++ []) = A0 from by simp]
      rw [set_get_id st.heap i (.arr D0 A0) hheap]
      simp
  | cons p rest2 ih =>
    cases f with
    | zero => omega
    | succ g =>
      cases g with
      | zero => simp at hf
      | succ g2 =>
        simp only [List.map_cons, pairChunkSeq]
        unfold readAmf3ArrayAssoc
        have hB1 : pre ++ ((stringChunk T p.1).1
              ++ (primChunk (stringChunk T p.1).2 p.2).1
              ++ (pairChunkSeq (primChunk (stringChunk T p.1).2 p.2).2 rest2).1)
              ++ ((stringChunk (pairChunkSeq (primChunk (stringChunk T p.1).2 p.2).2 rest2).2 []).1 ++ rest)
            = pre ++ (stringChunk T p.1).1
              ++ ((primChunk (stringChunk T p.1).2 p.2).1
                ++ ((pairChunkSeq (primChunk (stringChunk T p.1).2 p.2).2 rest2).1
                  ++ ((stringChunk (pairChunkSeq (primChunk (stringChunk T p.1).2 p.2).2 rest2).2 []).1 ++ rest))) := by
          simp
        rw [hB1]
        rw [readAmf3String_chunk p.1 T pre _ st ho hT (hklen p (by simp))
          (by omega)]
        dsimp only
        rw [if_neg (hne p (by simp))]
        have hB2 : pre ++ (stringChunk T p.1).1
              ++ ((primChunk (stringChunk T p.1).2 p.2).1
                ++ ((pairChunkSeq (primChunk (stringChunk T p.1).2 p.2).2 rest2).1
                  ++ ((stringChunk (pairChunkSeq (primChunk (stringChunk T p.1).2 p.2).2 rest2).2 []).1 ++ rest)))
            = (pre ++ (stringChunk T p.1).1)
              ++ (primChunk (stringChunk T p.1).2 p.2).1
              ++ ((pairChunkSeq (primChunk (stringChunk T p.1).2 p.2).2 rest2).1
                ++ ((stringChunk (pairChunkSeq (primChunk (stringChunk T p.1).2 p.2).2 rest2).2 []).1 ++ rest)) := by
          simp
        rw [hB2]
        have hT1 : (stringChunk T p.1).2.length < 268435456 := by
          have := stringChunk_table_len T p.1
          simp at hTlen
          omega
        rw [readAmf3_prim g2 p.2 (stringChunk T p.1).2 (pre ++ (stringChunk T p.1).1) _
          _ (by simp only [List.length_append]) (by simp) (hOK p (by simp)) hT1]
        dsimp only
        rw [setObjPropH_arr _ i p.1 (primVal p.2) D0 A0 hheap]
        rw [setAssoc_fresh A0 p.1 (primVal p.2) (fun q hq => hfresh p (by simp) q hq)]
        have hB3 : (pre ++ (stringChunk T p.1).1)
              ++ (primChunk (stringChunk T p.1).2 p.2).1
              ++ ((pairChunkSeq (primChunk (stringChunk T p.1).2 p.2).2 rest2).1
                ++ ((stringChunk (pairChunkSeq (primChunk (stringChunk T p.1).2 p.2).2 rest2).2 []).1 ++ rest))
            = (pre ++ (stringChunk T p.1).1 ++ (primChunk (stringChunk T p.1).2 p.2).1)
              ++ (pairChunkSeq (primChunk (stringChunk T p.1).2 p.2).2 rest2).1
              ++ ((stringChunk (pairChunkSeq (primChunk (stringChunk T p.1).2 p.2).2 rest2).2 []).1 ++ rest) := by
          simp
        rw [hB3]
        have hlen : i < st.heap.length := get?_some_lt hheap
        rw [List.map_cons, List.nodup_cons] at hnd
        have hT2 : (primChunk (stringChunk T p.1).2 p.2).2.length
            + 2 * rest2.length < 268435456 := by
          have h1 := stringChunk_table_len T p.1
          have h2 := primChunk_table_len (stringChunk T p.1).2 p.2
          simp at hTlen
          omega
        have hkfresh : ∀ x ∈ rest2, ∀ q ∈ A0 ++ [(p.1, primVal p.2)], q.1 ≠ x.1 := by
          intro x hx q hq
          simp at hq
          rcases hq with hq | hq
          · exact hfresh x (by simp [hx]) q hq
          · rw [hq]
            show p.1 ≠ x.1
            intro he
            exact hnd.1 (by rw [he]; exact List.mem_map_of_mem Prod.fst hx)
        rw [ih (g2 + 1) (primChunk (stringChunk T p.1).2 p.2).2
          (pre ++ (stringChunk T p.1).1 ++ (primChunk (stringChunk T p.1).2 p.2).1) _
          (A0 ++ [(p.1, primVal p.2)])
          (by rw [get?_set_self _ _ _ hlen])
          hkfresh hnd.2 (fun x hx => hne x (by simp [hx]))
          (by simp only [List.length_append]) (by simp)
          (fun x hx => hklen x (by simp [hx])) (fun x hx => hOK x (by simp [hx]))
          hT2 (by simp at hf; omega)]
        rw [List.set_set]
        simp [List.append_assoc]
        omega

/-!  Dense-element lemmas: the writer dense loop emits `primChunkSeq` of
the remaining elements, and the reader dense loop consumes it, pushing the
values in order. -/

theorem writeDenseElems_chunk (f : Nat) (heap : List HNode)
    (done rem : List Prim) (st : WSt)
    (hOK : ∀ p ∈ rem, primOKb p = true)
    (hT : st.strRefs.length + rem.length ≤ 268435456)
    (hf : rem.length < f) :
    writeDenseElems f heap ((done ++ rem).map primVal) (done.length + rem.length)
        done.length st
      = .ok { st with out := st.out ++ (primChunkSeq st.strRefs rem).1,
                      strRefs := (primChunkSeq st.strRefs rem).2 } := by
  induction rem generalizing f done st with
  | nil =>
    cases f with
    | zero => omega
    | succ g =>
      unfold writeDenseElems
      rw [if_neg (by simp only [List.length_nil]; omega)]
      simp [primChunkSeq]
  | cons p rest ih =>
    cases f with
    | zero => omega
    | succ g =>
      cases g with
      | zero => simp at hf
      | succ g2 =>
        simp only [primChunkSeq]
        unfold writeDenseElems
        rw [if_pos (by simp)]
        have hget : ((done ++ p :: rest).map primVal).getD done.length .undef
            = primVal p := by
          rw [List.map_append, List.map_cons]
          rw [show done.length = (done.map primVal).length from by simp]
          exact getD_append_head (done.map primVal) (primVal p) (rest.map primVal) _
        rw [hget]
        rw [writeAmf3_prim g2 heap p st (hOK p (by simp)) (by simp at hT; omega)]
        dsimp only
        have hT2 : (primChunk st.strRefs p).2.length + rest.length ≤ 268435456 := by
          have := primChunk_table_len st.strRefs p
          simp at hT
          omega
        have hrw : writeDenseElems (g2 + 1) heap ((done ++ p :: rest).map primVal)
              (done.length + (p :: rest).length) (done.length + 1)
              { st with out := st.out ++ (primChunk st.strRefs p).1,
                        strRefs := (primChunk st.strRefs p).2 }
            = .ok { st with
                out := st.out ++ (primChunk st.strRefs p).1
                  ++ (primChunkSeq (primChunk st.strRefs p).2 rest).1,
                strRefs := (primChunkSeq (primChunk st.strRefs p).2 rest).2 } := by
          have := ih (g2 + 1) (done ++ [p])
            { st with out := st.out ++ (primChunk st.strRefs p).1,
                      strRefs := (primChunk st.strRefs p).2 }
            (fun x hx => hOK x (by simp [hx])) (by simpa using hT2)
            (by simp at hf; omega)
          rw [show (done ++ [p]) ++ rest = done ++ p :: rest from by simp] at this
          rw [show (done ++ [p]).length = done.length + 1 from by simp] at this
          rw [show done.length + 1 + rest.length = done.length + (p :: rest).length
            from by simp; omega] at this
          exact this
        rw [hrw]
        simp [List.append_assoc]

theorem readAmf3ArrayDense_chunk (f : Nat) (ds : List Prim)
    (T : List JsStr) (pre rest : List Nat) (st : RSt) (i : Nat)
    (D0 : List HVal) (A0 : List (JsStr × HVal))
    (hheap : st.heap.get? i = some (.arr D0 A0))
    (ho : st.offset = pre.length) (hT : st.strRefs = T)
    (hOK : ∀ p ∈ ds, primOKb p = true)
    (hTlen : T.length + ds.length ≤ 268435456)
    (hf : ds.length < f) :
    readAmf3ArrayDense f (pre ++ (primChunkSeq T ds).1 ++ rest) st i ds.length
      = .ok { st with
          offset := pre.length + (primChunkSeq T ds).1.length,
          strRefs := (primChunkSeq T ds).2,
          heap := st.heap.set i (.arr (D0 ++ ds.map primVal) A0) } := by
  induction ds generalizing f T pre st D0 with
  | nil =>
    cases f with
    | zero => omega
    | succ g =>
      simp only [List.map_nil, primChunkSeq, List.length_nil, readAmf3ArrayDense]
      rw [show (D0 ++ []) = D0 from by simp]
      rw [set_get_id st.heap i (.arr D0 A0) hheap]
      rw [← hT]
      rw [show pre.length + 0 = st.offset from by omega]
  | cons p rest2 ih =>
    cases f with
    | zero => omega
    | succ g =>
      cases g with
      | zero => simp at hf
      | succ g2 =>
        simp only [List.map_cons, primChunkSeq, List.length_cons]
        unfold readAmf3ArrayDense
        have hB1 : pre ++ ((primChunk T p).1
              ++ (primChunkSeq (primChunk T p).2 rest2).1) ++ rest
            = pre ++ (primChunk T p).1
              ++ ((primChunkSeq (primChunk T p).2 rest2).1 ++ rest) := by
          simp
        rw [hB1]
        rw [readAmf3_prim g2 p T pre _ st ho hT (hOK p (by simp))
          (by simp at hTlen; omega)]
        dsimp only
        rw [pushDenseH_arr _ i (primVal p) D0 A0 hheap]
        have hB2 : pre ++ (primChunk T p).1
              ++ ((primChunkSeq (primChunk T p).2 rest2).1 ++ rest)
            = (pre ++ (primChunk T p).1)
              ++ (primChunkSeq (primChunk T p).2 rest2).1 ++ rest := by
          simp
        rw [hB2]
        have hlen : i < st.heap.length := get?_some_lt hheap
        have hT2 : (primChunk T p).2.length + rest2.length ≤ 268435456 := by
          have := primChunk_table_len T p
          simp at hTlen
          omega
        rw [ih (g2 + 1) (primChunk T p).2 (pre ++ (primChunk T p).1) _
          (D0 ++ [primVal p])
          (by rw [get?_set_self _ _ _ hlen])
          (by simp) (by simp) (fun x hx => hOK x (by simp [hx]))
          hT2 (by simp at hf; omega)]
        rw [List.set_set]
        simp [List.append_assoc]
        omega

/-!  Assembly: full object wire image on the writer side. -/

theorem stringChunk_nil_table (T : List JsStr) : (stringChunk T []).2 = T := by
  unfold stringChunk
  cases jsIndexOf T ([] : JsStr) <;> simp

theorem get?_append_len {α : Type} (l : List α) (a : α) (r : List α) :
    (l ++ a :: r).get? l.length = some a := by
  induction l with
  | nil => rfl
  | cons b rest ih => simpa using ih

theorem set_append_len {α : Type} (l : List α) (a b : α) :
    (l ++ [a]).set l.length b = l ++ [b] := by
  induction l with
  | nil => rfl
  | cons x rest ih => simpa using ih

theorem objHeader_eq (n : Nat) :
    (3 ||| (1 <<< 3)) ||| (n <<< 4) = 16 * n + 11 := by
  have h3 : (3 ||| (1 <<< 3) : Nat) = 11 := by decide
  rw [h3, shl_eq_mul, Nat.or_comm]
  have h11 : (11 : Nat) < 2 ^ 4 := by norm_num
  have := or_of_mul_add h11 n
  norm_num at this ⊢
  omega

theorem writeAmf3_objWire (f : Nat) (heap : List HNode) (i : Nat)
    (props : List (JsStr × HVal)) (c : JsStr) (ps : List (JsStr × Prim)) (st : WSt)
    (hheap : heap.get? i = some (.obj props))
    (hno : jsIndexOf st.objRefs i = none)
    (hT : st.strRefs = [])
    (hcn : jsGetProp props keyClassName = .str c)
    (hext : ¬ jsGetProp props keyExternalizable = .bool true)
    (hnames : (props.map Prod.fst).filter
        (fun k => k ≠ keyClassName ∧ k ≠ keyExternalizable) = ps.map Prod.fst)
    (hlook : ∀ p ∈ ps, jsGetProp props p.1 = primVal p.2)
    (hclen : c.length < 268435456)
    (hklen : ∀ p ∈ ps, p.1.length < 268435456)
    (hOK : ∀ p ∈ ps, primOKb p.2 = true)
    (hcount : ps.length < 16777216)
    (hf : ps.length < f) :
    writeAmf3 (f + 2) heap (.ref i) st
      = .ok { st with
          out := st.out ++ objWire c ps,
          objRefs := st.objRefs ++ [i],
          strRefs := (primChunkSeq (chunkSeq (stringChunk [] c).2
            (ps.map Prod.fst)).2 (ps.map Prod.snd)).2 } := by
  have hty : getTypeAmf3 heap (.ref i) = .ok a3Object := by
    unfold getTypeAmf3
    dsimp only
    rw [hheap]
  show writeAmf3 (f + 1 + 1) heap (.ref i) st = _
  simp only [writeAmf3]
  rw [hty]
  dsimp only
  rw [if_neg (by decide), if_neg (by decide), if_neg (by decide), if_neg (by decide),
    if_neg (by decide), if_neg (by decide), if_neg (by decide), if_pos rfl]
  simp only [writeAmf3Object]
  rw [show (emit st [a3Object]).objRefs = st.objRefs from rfl, hno, hheap]
  dsimp only
  rw [hcn]
  dsimp only
  simp only [if_neg hext]
  rw [hnames]
  rw [show ((ps.map Prod.fst).length <<< 4) = ps.length <<< 4 from by simp]
  rw [if_pos trivial, objHeader_eq]
  rw [writeAmf3IntegerE_ok (16 * ps.length + 11) (by omega)]
  dsimp only [emit]
  rw [hT]
  rw [writeAmf3StringFn_chunk c _ hclen (by norm_num)]
  dsimp only
  have hcT := stringChunk_table_len ([] : List JsStr) c
  rw [writePropNames_chunkSeq (ps.map Prod.fst) _
    (by intro s hs
        rcases List.mem_map.mp hs with ⟨q, hq, he⟩
        rw [← he]
        exact hklen q hq)
    (by simp at hcT ⊢; omega)]
  dsimp only
  have hnT := chunkSeq_table_len (ps.map Prod.fst) (stringChunk [] c).2
  rw [writePropValues_chunk f heap props ps _ hlook hOK
    (by simp at hnT hcT ⊢; omega) hf]
  dsimp only
  have hvT := primChunkSeq_table_len (ps.map Prod.snd)
    (chunkSeq (stringChunk [] c).2 (ps.map Prod.fst)).2
  rw [writeAmf3StringFn_chunk [] _ (by norm_num)
    (by simp at hvT hnT hcT ⊢; omega)]
  rw [stringChunk_nil_table]
  simp [objWire, a3Object, List.append_assoc]

/-- Writer side of an externalizable object: only the marker, the
trait header 7, and the class name are emitted; every other property of
the node is ignored. -/
theorem writeAmf3_objWireExt (f : Nat) (heap : List HNode) (i : Nat)
    (props : List (JsStr × HVal)) (c : JsStr) (st : WSt)
    (hheap : heap.get? i = some (.obj props))
    (hno : jsIndexOf st.objRefs i = none)
    (hT : st.strRefs = [])
    (hcn : jsGetProp props keyClassName = .str c)
    (hext : jsGetProp props keyExternalizable = .bool true)
    (hclen : c.length < 268435456) :
    writeAmf3 (f + 2) heap (.ref i) st
      = .ok { st with
          out := st.out ++ [0x0A] ++ u29W 7 ++ (stringChunk [] c).1,
          objRefs := st.objRefs ++ [i],
          strRefs := (stringChunk [] c).2 } := by
  have hty : getTypeAmf3 heap (.ref i) = .ok a3Object := by
    unfold getTypeAmf3
    dsimp only
    rw [hheap]
  show writeAmf3 (f + 1 + 1) heap (.ref i) st = _
  simp only [writeAmf3]
  rw [hty]
  dsimp only
  rw [if_neg (by decide), if_neg (by decide), if_neg (by decide), if_neg (by decide),
    if_neg (by decide), if_neg (by decide), if_neg (by decide), if_pos rfl]
  simp only [writeAmf3Object]
  rw [show (emit st [a3Object]).objRefs = st.objRefs from rfl, hno, hheap]
  dsimp only
  rw [hcn]
  dsimp only
  simp only [if_pos hext]
  rw [show (3 ||| (1 <<< 2) : Nat) = 7 from by decide]
  rw [writeAmf3IntegerE_ok 7 (by omega)]
  dsimp only [emit]
  rw [hT]
  rw [writeAmf3StringFn_chunk c _ hclen (by norm_num)]
  simp [a3Object, List.append_assoc]

/-!  Assembly: full object wire image on the reader side. -/

theorem readAmf3_objWire (f : Nat) (c : JsStr) (ps : List (JsStr × Prim))
    (pre rest : List Nat) (st : RSt)
    (ho : st.offset = pre.length) (hsr : st.strRefs = [])
    (hc : c ≠ [])
    (hnd : (ps.map Prod.fst).Nodup)
    (hkC : ∀ p ∈ ps, p.1 ≠ keyClassName)
    (hclen : c.length < 268435456)
    (hklen : ∀ p ∈ ps, p.1.length < 268435456)
    (hOK : ∀ p ∈ ps, primOKb p.2 = true)
    (hcount : ps.length < 16777216)
    (hf : ps.length < f) :
    readAmf3 (f + 2) (pre ++ objWire c ps ++ rest) st none
      = .ok (.ref st.heap.length,
          { st with
              offset := pre.length + (objWire c ps).length,
              heap := st.heap ++ [.obj ((keyClassName, .str c)
                :: ps.map (fun p => (p.1, primVal p.2)))],
              strRefs := (primChunkSeq (chunkSeq (stringChunk [] c).2
                (ps.map Prod.fst)).2 (ps.map Prod.snd)).2,
              objRefs := st.objRefs ++ [st.heap.length],
              traitRefs := st.traitRefs ++ [⟨c, ps.map Prod.fst, false, true⟩] }) := by
  cases f with
  | zero => omega
  | succ f2 =>
  have hmark : (pre ++ objWire c ps ++ rest).getD st.offset 0 = 0x0A := by
    rw [ho, show pre.length = pre.length + 0 from rfl]
    rw [getD_concat pre (objWire c ps) rest 0 (by simp [objWire])]
    simp [objWire]
  show readAmf3 (f2 + 1 + 1 + 1) (pre ++ objWire c ps ++ rest) st none = _
  simp only [readAmf3]
  rw [hmark]
  rw [if_neg (by decide), if_neg (by decide), if_neg (by decide), if_neg (by decide),
    if_neg (by decide), if_neg (by decide), if_neg (by decide), if_neg (by decide),
    if_neg (by decide), if_neg (by decide), if_pos (by decide)]
  simp only [readAmf3Object]
  have hB1 : pre ++ objWire c ps ++ rest
      = pre ++ [0x0A] ++ u29W (16 * ps.length + 11) ++ ((stringChunk [] c).1 ++ ((chunkSeq (stringChunk [] c).2 (ps.map Prod.fst)).1 ++ ((primChunkSeq (chunkSeq (stringChunk [] c).2 (ps.map Prod.fst)).2 (ps.map Prod.snd)).1 ++ ((stringChunk (primChunkSeq (chunkSeq (stringChunk [] c).2 (ps.map Prod.fst)).2 (ps.map Prod.snd)).2 []).1 ++ rest)))) := by
    simp [objWire, List.append_assoc]
  rw [hB1]
  rw [readAmf3Integer_u29W (16 * ps.length + 11) (by omega) (pre ++ [0x0A]) _
    (bump st 1) (by simp [bump, ho])]
  dsimp only [bump]
  rw [if_neg (by rw [and_one_eq_mod]; omega)]
  rw [if_neg (by rw [shr_eq_div, and_one_eq_mod]; omega)]
  have hB2 : pre ++ [0x0A] ++ u29W (16 * ps.length + 11) ++ ((stringChunk [] c).1 ++ ((chunkSeq (stringChunk [] c).2 (ps.map Prod.fst)).1 ++ ((primChunkSeq (chunkSeq (stringChunk [] c).2 (ps.map Prod.fst)).2 (ps.map Prod.snd)).1 ++ ((stringChunk (primChunkSeq (chunkSeq (stringChunk [] c).2 (ps.map Prod.fst)).2 (ps.map Prod.snd)).2 []).1 ++ rest))))
      = pre ++ [0x0A] ++ u29W (16 * ps.length + 11) ++ (stringChunk [] c).1 ++ ((chunkSeq (stringChunk [] c).2 (ps.map Prod.fst)).1 ++ ((primChunkSeq (chunkSeq (stringChunk [] c).2 (ps.map Prod.fst)).2 (ps.map Prod.snd)).1 ++ ((stringChunk (primChunkSeq (chunkSeq (stringChunk [] c).2 (ps.map Prod.fst)).2 (ps.map Prod.snd)).2 []).1 ++ rest))) := by
    simp
  rw [hB2]
  rw [readAmf3String_chunk c [] (pre ++ [0x0A] ++ u29W (16 * ps.length + 11)) _
    _ (by simp [bump, ho]; omega) (by simp [bump, hsr]) hclen (by norm_num)]
  dsimp only
  have hcnt : (16 * ps.length + 11) >>> 4 = (ps.map Prod.fst).length := by
    rw [shr_eq_div]
    simp
    omega
  rw [hcnt]
  have hB3 : pre ++ [0x0A] ++ u29W (16 * ps.length + 11) ++ (stringChunk [] c).1 ++ ((chunkSeq (stringChunk [] c).2 (ps.map Prod.fst)).1 ++ ((primChunkSeq (chunkSeq (stringChunk [] c).2 (ps.map Prod.fst)).2 (ps.map Prod.snd)).1 ++ ((stringChunk (primChunkSeq (chunkSeq (stringChunk [] c).2 (ps.map Prod.fst)).2 (ps.map Prod.snd)).2 []).1 ++ rest)))
      = pre ++ [0x0A] ++ u29W (16 * ps.length + 11) ++ (stringChunk [] c).1 ++ (chunkSeq (stringChunk [] c).2 (ps.map Prod.fst)).1 ++ ((primChunkSeq (chunkSeq (stringChunk [] c).2 (ps.map Prod.fst)).2 (ps.map Prod.snd)).1 ++ ((stringChunk (primChunkSeq (chunkSeq (stringChunk [] c).2 (ps.map Prod.fst)).2 (ps.map Prod.snd)).2 []).1 ++ rest)) := by
    simp
  rw [hB3]
  have hcT := stringChunk_table_len ([] : List JsStr) c
  rw [readTraitNames_chunkSeq (ps.map Prod.fst) [] (stringChunk [] c).2
    (pre ++ [0x0A] ++ u29W (16 * ps.length + 11) ++ (stringChunk [] c).1) _ _
    (by simp only [List.length_append]) (by simp)
    (by intro s hs
        rcases List.mem_map.mp hs with ⟨q, hq, he⟩
        rw [← he]
        exact hklen q hq)
    (by simp at hcT ⊢; omega)]
  dsimp only
  have hdE : (decide (((16 * ps.length + 11) >>> 2) &&& 1 = 1)) = false := by
    rw [decide_eq_false_iff_not, shr_eq_div, and_one_eq_mod]
    omega
  have hdD : (decide (((16 * ps.length + 11) >>> 3) &&& 1 = 1)) = true := by
    rw [decide_eq_true_eq, shr_eq_div, and_one_eq_mod]
    omega
  rw [hdE, hdD]
  rw [if_pos hc]
  dsimp only [halloc]
  rw [if_neg (by decide)]
  have hnT := chunkSeq_table_len (ps.map Prod.fst) (stringChunk [] c).2
  have hB4 : pre ++ [0x0A] ++ u29W (16 * ps.length + 11) ++ (stringChunk [] c).1 ++ (chunkSeq (stringChunk [] c).2 (ps.map Prod.fst)).1 ++ ((primChunkSeq (chunkSeq (stringChunk [] c).2 (ps.map Prod.fst)).2 (ps.map Prod.snd)).1 ++ ((stringChunk (primChunkSeq (chunkSeq (stringChunk [] c).2 (ps.map Prod.fst)).2 (ps.map Prod.snd)).2 []).1 ++ rest))
      = pre ++ [0x0A] ++ u29W (16 * ps.length + 11) ++ (stringChunk [] c).1 ++ (chunkSeq (stringChunk [] c).2 (ps.map Prod.fst)).1 ++ (primChunkSeq (chunkSeq (stringChunk [] c).2 (ps.map Prod.fst)).2 (ps.map Prod.snd)).1 ++ ((stringChunk (primChunkSeq (chunkSeq (stringChunk [] c).2 (ps.map Prod.fst)).2 (ps.map Prod.snd)).2 []).1 ++ rest) := by
    simp
  rw [hB4]
  simp only [List.nil_append]
  rw [readSealedValues_chunk (f2 + 1) ps
    (chunkSeq (stringChunk [] c).2 (ps.map Prod.fst)).2
    (pre ++ [0x0A] ++ u29W (16 * ps.length + 11) ++ (stringChunk [] c).1 ++ (chunkSeq (stringChunk [] c).2 (ps.map Prod.fst)).1) _
    _ st.heap.length [(keyClassName, .str c)]
    (by rw [show st.heap ++ [HNode.obj [(keyClassName, .str c)]]
          = st.heap ++ HNode.obj [(keyClassName, .str c)] :: [] from rfl]
        exact get?_append_len st.heap _ [])
    (by intro p hp q hq
        simp at hq
        rw [hq]
        show keyClassName ≠ p.1
        exact fun he => hkC p hp (he.symm))
    hnd (by simp only [List.length_append]) (by simp)
    hOK (by simp at hnT hcT ⊢; omega) hf]
  dsimp only
  rw [set_append_len st.heap (HNode.obj [(keyClassName, .str c)]) _]
  have hvT := primChunkSeq_table_len (ps.map Prod.snd)
    (chunkSeq (stringChunk [] c).2 (ps.map Prod.fst)).2
  have hB5 : pre ++ [0x0A] ++ u29W (16 * ps.length + 11) ++ (stringChunk [] c).1 ++ (chunkSeq (stringChunk [] c).2 (ps.map Prod.fst)).1 ++ (primChunkSeq (chunkSeq (stringChunk [] c).2 (ps.map Prod.fst)).2 (ps.map Prod.snd)).1 ++ ((stringChunk (primChunkSeq (chunkSeq (stringChunk [] c).2 (ps.map Prod.fst)).2 (ps.map Prod.snd)).2 []).1 ++ rest)
      = pre ++ [0x0A] ++ u29W (16 * ps.length + 11) ++ (stringChunk [] c).1 ++ (chunkSeq (stringChunk [] c).2 (ps.map Prod.fst)).1 ++ (primChunkSeq (chunkSeq (stringChunk [] c).2 (ps.map Prod.fst)).2 (ps.map Prod.snd)).1 ++ (stringChunk (primChunkSeq (chunkSeq (stringChunk [] c).2 (ps.map Prod.fst)).2 (ps.map Prod.snd)).2 []).1 ++ rest := by
    simp
  rw [hB5]
  rw [readDynamicProps_term f2
    (primChunkSeq (chunkSeq (stringChunk [] c).2 (ps.map Prod.fst)).2
      (ps.map Prod.snd)).2
    (pre ++ [0x0A] ++ u29W (16 * ps.length + 11) ++ (stringChunk [] c).1 ++ (chunkSeq (stringChunk [] c).2 (ps.map Prod.fst)).1 ++ (primChunkSeq (chunkSeq (stringChunk [] c).2 (ps.map Prod.fst)).2 (ps.map Prod.snd)).1) rest _ st.heap.length
    (by simp only [List.length_append]) (by simp)
    (by simp at hvT hnT hcT ⊢; omega)]
  rw [stringChunk_nil_table]
  simp [objWire, List.append_assoc]
  omega

/-!  Assembly: full array wire image, writer side then reader side. -/

theorem writeAmf3_arrWire (f : Nat) (heap : List HNode) (i : Nat)
    (dense : List Prim) (as : List (JsStr × Prim)) (st : WSt)
    (hheap : heap.get? i = some (.arr (dense.map primVal)
      (as.map (fun p => (p.1, primVal p.2)))))
    (hno : jsIndexOf st.objRefs i = none)
    (hT : st.strRefs = [])
    (hndA : (as.map Prod.fst).Nodup)
    (hpir : ∀ p ∈ as, parseIntInRange p.1 dense.length = false)
    (hklenA : ∀ p ∈ as, p.1.length < 268435456)
    (hOKA : ∀ p ∈ as, primOKb p.2 = true)
    (hOKD : ∀ p ∈ dense, primOKb p = true)
    (hacount : as.length < 16777216)
    (hdcount : dense.length < 16777216)
    (hfA : as.length < f) (hfD : dense.length < f) :
    writeAmf3 (f + 2) heap (.ref i) st
      = .ok { st with
          out := st.out ++ arrWire dense as,
          objRefs := st.objRefs ++ [i],
          strRefs := (primChunkSeq (stringChunk (pairChunkSeq [] as).2 []).2
            dense).2 } := by
  have hty : getTypeAmf3 heap (.ref i) = .ok a3Array := by
    unfold getTypeAmf3
    dsimp only
    rw [hheap]
  show writeAmf3 (f + 1 + 1) heap (.ref i) st = _
  simp only [writeAmf3]
  rw [hty]
  dsimp only
  rw [if_neg (by decide), if_neg (by decide), if_neg (by decide), if_neg (by decide),
    if_neg (by decide), if_neg (by decide), if_pos rfl]
  simp only [writeAmf3Array]
  rw [show (emit st [a3Array]).objRefs = st.objRefs from rfl, hno, hheap]
  dsimp only
  have hfilter : (((as.map (fun p => (p.1, primVal p.2))).map Prod.fst).filter
      (fun k => !(parseIntInRange k (dense.map primVal).length)))
      = as.map Prod.fst := by
    rw [List.map_map]
    rw [show (Prod.fst ∘ fun p : JsStr × Prim => (p.1, primVal p.2))
        = (Prod.fst : JsStr × Prim → JsStr) from rfl]
    rw [List.filter_eq_self.mpr]
    intro a ha
    rcases List.mem_map.mp ha with ⟨q, hq, he⟩
    rw [← he]
    rw [show (dense.map primVal).length = dense.length from by simp]
    rw [hpir q hq]
    rfl
  rw [hfilter]
  rw [show ((dense.map primVal).length <<< 1 : Nat) ||| 1 = 2 * dense.length + 1 from by
    rw [or_shl1_one]; simp]
  rw [writeAmf3IntegerE_ok (2 * dense.length + 1) (by omega)]
  dsimp only [emit]
  rw [hT]
  rw [writeAssocPairs_chunk f heap _ as _
    (fun p hp => jsGetProp_map_self as hndA p hp)
    hklenA hOKA (by simp; omega) hfA]
  dsimp only
  have haT := pairChunkSeq_table_len as ([] : List JsStr)
  rw [writeAmf3StringFn_chunk [] _ (by norm_num) (by simp at haT ⊢; omega)]
  dsimp only
  have hde := writeDenseElems_chunk f heap [] dense
    { st with
        out := ((st.out ++ [a3Array]) ++ u29W (2 * dense.length + 1)
          ++ (pairChunkSeq [] as).1) ++ (stringChunk (pairChunkSeq [] as).2 []).1,
        objRefs := st.objRefs ++ [i],
        strRefs := (stringChunk (pairChunkSeq [] as).2 []).2 }
    hOKD
    (by have h1 := stringChunk_table_len (pairChunkSeq [] as).2 ([] : JsStr)
        simp at haT h1 ⊢
        omega)
    hfD
  rw [show ([] : List Prim) ++ dense = dense from rfl] at hde
  rw [show (([] : List Prim)).length + dense.length = dense.length from by simp] at hde
  rw [show (([] : List Prim)).length = 0 from rfl] at hde
  rw [show (dense.map primVal).length = dense.length from by simp]
  rw [hde]
  simp [arrWire, a3Array, List.append_assoc, stringChunk_nil_table]

theorem readAmf3_arrWire (f : Nat) (dense : List Prim) (as : List (JsStr × Prim))
    (pre rest : List Nat) (st : RSt)
    (ho : st.offset = pre.length) (hsr : st.strRefs = [])
    (hndA : (as.map Prod.fst).Nodup)
    (hneA : ∀ p ∈ as, p.1 ≠ [])
    (hklenA : ∀ p ∈ as, p.1.length < 268435456)
    (hOKA : ∀ p ∈ as, primOKb p.2 = true)
    (hOKD : ∀ p ∈ dense, primOKb p = true)
    (hacount : as.length < 16777216)
    (hdcount : dense.length < 16777216)
    (hfA : as.length < f) (hfD : dense.length < f) :
    readAmf3 (f + 2) (pre ++ arrWire dense as ++ rest) st none
      = .ok (.ref st.heap.length,
          { st with
              offset := pre.length + (arrWire dense as).length,
              heap := st.heap ++ [.arr (dense.map primVal)
                (as.map (fun p => (p.1, primVal p.2)))],
              strRefs := (primChunkSeq (stringChunk (pairChunkSeq [] as).2 []).2
                dense).2,
              objRefs := st.objRefs ++ [st.heap.length] }) := by
  cases f with
  | zero => omega
  | succ f2 =>
  have hmark : (pre ++ arrWire dense as ++ rest).getD st.offset 0 = 0x09 := by
    rw [ho, show pre.length = pre.length + 0 from rfl]
    rw [getD_concat pre (arrWire dense as) rest 0 (by simp [arrWire])]
    simp [arrWire]
  show readAmf3 (f2 + 1 + 1 + 1) (pre ++ arrWire dense as ++ rest) st none = _
  simp only [readAmf3]
  rw [hmark]
  rw [if_neg (by decide), if_neg (by decide), if_neg (by decide), if_neg (by decide),
    if_neg (by decide), if_neg (by decide), if_neg (by decide), if_neg (by decide),
    if_neg (by decide), if_pos (by decide)]
  simp only [readAmf3Array]
  have hB1 : pre ++ arrWire dense as ++ rest
      = pre ++ [0x09] ++ u29W (2 * dense.length + 1) ++ ((pairChunkSeq [] as).1 ++ ((stringChunk (pairChunkSeq [] as).2 []).1 ++ ((primChunkSeq (stringChunk (pairChunkSeq [] as).2 []).2 dense).1 ++ rest))) := by
    simp [arrWire, List.append_assoc]
  rw [hB1]
  rw [readAmf3Integer_u29W (2 * dense.length + 1) (by omega) (pre ++ [0x09]) _
    (bump st 1) (by simp [bump, ho])]
  dsimp only [bump]
  rw [if_neg (by rw [and_one_eq_mod]; omega)]
  have hcnt : (2 * dense.length + 1) >>> 1 = dense.length := by
    rw [shr_eq_div]
    omega
  rw [hcnt]
  dsimp only [halloc]
  have hB2 : pre ++ [0x09] ++ u29W (2 * dense.length + 1) ++ ((pairChunkSeq [] as).1 ++ ((stringChunk (pairChunkSeq [] as).2 []).1 ++ ((primChunkSeq (stringChunk (pairChunkSeq [] as).2 []).2 dense).1 ++ rest)))
      = (pre ++ [0x09] ++ u29W (2 * dense.length + 1)) ++ (pairChunkSeq [] as).1 ++ ((stringChunk (pairChunkSeq [] as).2 []).1 ++ ((primChunkSeq (stringChunk (pairChunkSeq [] as).2 []).2 dense).1 ++ rest)) := by
    simp
  rw [hB2]
  rw [readAmf3ArrayAssoc_chunk (f2 + 1) as [] (pre ++ [0x09] ++ u29W (2 * dense.length + 1)) _ _
    st.heap.length [] []
    (by rw [show st.heap ++ [HNode.arr [] []]
          = st.heap ++ HNode.arr [] [] :: [] from rfl]
        exact get?_append_len st.heap _ [])
    (by intro p hp q hq; cases hq)
    hndA hneA (by rw [ho]; simp only [List.length_append, List.length_cons,
      List.length_nil]) (by exact hsr)
    hklenA hOKA (by simp; omega) hfA]
  dsimp only
  rw [set_append_len st.heap (HNode.arr [] []) _]
  simp only [List.nil_append]
  have haT := pairChunkSeq_table_len as ([] : List JsStr)
  have hB3 : (pre ++ [0x09] ++ u29W (2 * dense.length + 1)) ++ (pairChunkSeq [] as).1 ++ ((stringChunk (pairChunkSeq [] as).2 []).1 ++ ((primChunkSeq (stringChunk (pairChunkSeq [] as).2 []).2 dense).1 ++ rest))
      = ((pre ++ [0x09] ++ u29W (2 * dense.length + 1)) ++ (pairChunkSeq [] as).1 ++ (stringChunk (pairChunkSeq [] as).2 []).1) ++ (primChunkSeq (stringChunk (pairChunkSeq [] as).2 []).2 dense).1 ++ rest := by
    simp
  rw [hB3]
  rw [readAmf3ArrayDense_chunk (f2 + 1) dense (stringChunk (pairChunkSeq [] as).2 []).2
    ((pre ++ [0x09] ++ u29W (2 * dense.length + 1)) ++ (pairChunkSeq [] as).1 ++ (stringChunk (pairChunkSeq [] as).2 []).1) rest _ st.heap.length
    [] (as.map (fun p => (p.1, primVal p.2)))
    (by rw [show st.heap ++ [HNode.arr [] (as.map (fun p => (p.1, primVal p.2)))]
          = st.heap ++ HNode.arr [] (as.map (fun p => (p.1, primVal p.2))) :: [] from rfl]
        exact get?_append_len st.heap _ [])
    (by simp only [List.length_append]) (by simp)
    hOKD
    (by have h1 := stringChunk_table_len (pairChunkSeq [] as).2 ([] : JsStr)
        simp at haT h1 ⊢
        omega)
    hfD]
  rw [set_append_len st.heap (HNode.arr [] (as.map (fun p => (p.1, primVal p.2)))) _]
  simp only [List.nil_append]
  simp [arrWire, List.append_assoc]
  omega

/-- C7: for every header and every message of a Remoting packet, the loop
body reads exactly one AMF value starting at the value offset; when the
declared i32 length is nonnegative the cursor moves to the value start plus
the declared length (discarding trailing bytes of the declared window), and
when it is negative the cursor advances by the bytes the value actually
consumed. -/
theorem c7_remoting_cursor_rule :
    (∀ (fuel : Nat) (buf : List Nat) (off : Nat) (v : HVal) (st : RSt),
      read fuel buf (initRSt (headerValueOffset buf off) 0) = .ok (v, st) →
      decodeHeaderOne fuel buf off
        = .ok (⟨(readUtf8P buf off).1,
                buf.getD (readUtf8P buf off).2 0 = 1,
                v, headerDeclaredLength buf off, st.version, st.heap⟩,
            if 0 ≤ headerDeclaredLength buf off
            then headerValueOffset buf off + (headerDeclaredLength buf off).toNat
            else headerValueOffset buf off
              + (st.offset - headerValueOffset buf off)))
    ∧ (∀ (fuel : Nat) (buf : List Nat) (off : Nat) (v : HVal) (st : RSt),
      read fuel buf (initRSt (messageBodyOffset buf off) 0) = .ok (v, st) →
      decodeMessageOne fuel buf off
        = .ok (⟨(readUtf8P buf off).1,
                (readUtf8P buf (readUtf8P buf off).2).1,
                v, messageDeclaredLength buf off, st.version, st.heap⟩,
            if 0 ≤ messageDeclaredLength buf off
            then messageBodyOffset buf off + (messageDeclaredLength buf off).toNat
            else messageBodyOffset buf off
              + (st.offset - messageBodyOffset buf off))) := by
  constructor
  · intro fuel buf off v st hread
    unfold decodeHeaderOne
    dsimp only
    unfold headerValueOffset at hread
    rw [hread]
    unfold headerDeclaredLength headerValueOffset
    rfl
  · intro fuel buf off v st hread
    unfold decodeMessageOne
    dsimp only
    unfold messageBodyOffset at hread
    rw [hread]
    unfold messageDeclaredLength messageBodyOffset
    rfl

/-- Witness for C7: a header with declared length -1 (cursor advances by
the one byte the AMF0 null consumed, to offset 8) and a message with
declared length 2 (cursor jumps to the declared window end 10, discarding
the trailing byte). -/
theorem c7_remoting_cursor_rule_witness :
    decodeHeaderOne 5 [0, 0, 1, 255, 255, 255, 255, 5] 0
      = .ok (⟨[], true, .null, -1, 0, []⟩, 8)
    ∧ decodeMessageOne 5 [0, 0, 0, 0, 0, 0, 0, 2, 5, 99] 0
      = .ok (⟨[], [], .null, 2, 0, []⟩, 10) := by
  constructor
  · have h := c7_remoting_cursor_rule.1 5 [0, 0, 1, 255, 255, 255, 255, 5] 0
      .null ⟨8, 0, [], [], [], [], []⟩ (by decide)
    rw [h]
    decide
  · have h := c7_remoting_cursor_rule.2 5 [0, 0, 0, 0, 0, 0, 0, 2, 5, 99] 0
      .null ⟨9, 0, [], [], [], [], []⟩ (by decide)
    rw [h]
    decide

/-- The scaffold encoder string helper emits exactly the raw string chunk
(no marker byte), with the same reference-table discipline. -/
theorem encStringNoMarker_chunk (s : JsStr) (st : ESt)
    (hs : s.length < 268435456) (hT : st.stringRefs.length < 268435456) :
    encStringNoMarker s st
      = .ok { st with out := st.out ++ (stringChunk st.stringRefs s).1,
                      stringRefs := (stringChunk st.stringRefs s).2 } := by
  unfold encStringNoMarker stringChunk encU29
  cases hidx : jsIndexOf st.stringRefs s with
  | some i =>
    dsimp only
    have hi : i < st.stringRefs.length := jsIndexOf_some_lt hidx
    rw [if_neg (by rw [shl_eq_mul]; omega)]
    simp [epush]
  | none =>
    dsimp only
    by_cases hse : s = []
    · rw [if_pos hse, if_pos hse, if_neg (by norm_num)]
      simp [epush]
    · rw [if_neg hse, if_neg hse]
      rw [if_neg (by rw [or_shl1_one]; omega)]
      simp [epush, List.append_assoc]

/-- C8: trait property names and the class name of an object body, and the
associative keys of an array body, are written as raw AMF3 string chunks
(U29 reference-or-length header plus UTF-8 bytes, as laid out by
`stringChunk`, `chunkSeq` and `pairChunkSeq` inside `objWire` and
`arrWire`) with no 0x06 marker byte in front of them; the scaffold
encoder's `_writeAmf3StringNoMarker` emits the same marker-free chunk. -/
theorem c8_raw_string_keys :
    (∀ (f : Nat) (heap : List HNode) (i : Nat) (props : List (JsStr × HVal))
        (c : JsStr) (ps : List (JsStr × Prim)) (st : WSt),
      heap.get? i = some (.obj props) →
      jsIndexOf st.objRefs i = none →
      st.strRefs = [] →
      jsGetProp props keyClassName = .str c →
      ¬ jsGetProp props keyExternalizable = .bool true →
      (props.map Prod.fst).filter
        (fun k => k ≠ keyClassName ∧ k ≠ keyExternalizable) = ps.map Prod.fst →
      (∀ p ∈ ps, jsGetProp props p.1 = primVal p.2) →
      c.length < 268435456 →
      (∀ p ∈ ps, p.1.length < 268435456) →
      (∀ p ∈ ps, primOKb p.2 = true) →
      ps.length < 16777216 →
      ps.length < f →
      writeAmf3 (f + 2) heap (.ref i) st
        = .ok { st with
            out := st.out ++ objWire c ps,
            objRefs := st.objRefs ++ [i],
            strRefs := (primChunkSeq (chunkSeq (stringChunk [] c).2
              (ps.map Prod.fst)).2 (ps.map Prod.snd)).2 })
    ∧ (∀ (f : Nat) (heap : List HNode) (i : Nat) (dense : List Prim)
        (as : List (JsStr × Prim)) (st : WSt),
      heap.get? i = some (.arr (dense.map primVal)
        (as.map (fun p => (p.1, primVal p.2)))) →
      jsIndexOf st.objRefs i = none →
      st.strRefs = [] →
      (as.map Prod.fst).Nodup →
      (∀ p ∈ as, parseIntInRange p.1 dense.length = false) →
      (∀ p ∈ as, p.1.length < 268435456) →
      (∀ p ∈ as, primOKb p.2 = true) →
      (∀ p ∈ dense, primOKb p = true) →
      as.length < 16777216 →
      dense.length < 16777216 →
      as.length < f →
      dense.length < f →
      writeAmf3 (f + 2) heap (.ref i) st
        = .ok { st with
            out := st.out ++ arrWire dense as,
            objRefs := st.objRefs ++ [i],
            strRefs := (primChunkSeq (stringChunk (pairChunkSeq [] as).2 []).2
              dense).2 })
    ∧ (∀ (s : JsStr) (st : ESt),
      s.length < 268435456 →
      st.stringRefs.length < 268435456 →
      encStringNoMarker s st
        = .ok { st with out := st.out ++ (stringChunk st.stringRefs s).1,
                        stringRefs := (stringChunk st.stringRefs s).2 }) := by
  refine ⟨?_, ?_, ?_⟩
  · intro f heap i props c ps st h1 h2 h3 h4 h5 h6 h7 h8 h9 h10 h11 h12
    exact writeAmf3_objWire f heap i props c ps st h1 h2 h3 h4 h5 h6 h7 h8 h9 h10 h11 h12
  · intro f heap i dense as st h1 h2 h3 h4 h5 h6 h7 h8 h9 h10 h11 h12
    exact writeAmf3_arrWire f heap i dense as st h1 h2 h3 h4 h5 h6 h7 h8 h9 h10 h11 h12
  · intro s st h1 h2
    exact encStringNoMarker_chunk s st h1 h2

/-- Witness for C8: a one-property object `{A: 7}` with class name `C`, a
one-pair array `{B: 1}` with one dense element, and the scaffold
marker-free string writer on `D`, each evaluated to their concrete wire
bytes. -/
theorem c8_raw_string_keys_witness :
    writeAmf3 4 [.obj [(keyClassName, .str [67]), ([65], .num (.intg 7))]]
        (.ref 0) initW
      = .ok { initW with
          out := objWire [67] [([65], .pint 7)],
          objRefs := [0],
          strRefs := (primChunkSeq (chunkSeq (stringChunk [] [67]).2
            [[65]]).2 [.pint 7]).2 }
    ∧ writeAmf3 4 [.arr [.null] [([66], .num (.intg 1))]] (.ref 0) initW
      = .ok { initW with
          out := arrWire [.pnull] [([66], .pint 1)],
          objRefs := [0],
          strRefs := (primChunkSeq (stringChunk
            (pairChunkSeq [] [([66], .pint 1)]).2 []).2 [.pnull]).2 }
    ∧ encStringNoMarker [68] initESt
      = .ok { initESt with out := (stringChunk [] [68]).1,
                           stringRefs := (stringChunk [] [68]).2 } := by
  refine ⟨?_, ?_, ?_⟩
  · have h := c8_raw_string_keys.1 2 [.obj [(keyClassName, .str [67]),
      ([65], .num (.intg 7))]] 0 [(keyClassName, .str [67]), ([65], .num (.intg 7))]
      [67] [([65], .pint 7)] initW (by decide) (by decide) (by decide) (by decide)
      (by decide) (by decide) (by decide) (by decide) (by decide) (by decide)
      (by decide) (by decide)
    rw [h]
    decide
  · have h := c8_raw_string_keys.2.1 2 [.arr [.null] [([66], .num (.intg 1))]] 0
      [.pnull] [([66], .pint 1)] initW (by decide) (by decide) (by decide)
      (by decide) (by decide) (by decide) (by decide) (by decide) (by decide)
      (by decide) (by decide) (by decide)
    rw [h]
    decide
  · have h := c8_raw_string_keys.2.2 [68] initESt (by decide) (by decide)
    rw [h]
    decide

/-- C10: an inline AMF3 object decoded with a non-empty trait class name
comes back with the enumerable property `__className__` bound to that
class name in front of the sealed properties read from the wire;
symmetrically the object writer excludes `__className__` and
`__externalizable__` from the written property names and values (the wire
`objWire c ps` contains only the `ps` names), using them only for the
trait's class name and, when `__externalizable__` is `true`, for the
externalizable trait header 7 followed by just the class name. -/
theorem c10_className_round_trip :
    (∀ (f : Nat) (c : JsStr) (ps : List (JsStr × Prim))
        (pre rest : List Nat) (st : RSt),
      st.offset = pre.length →
      st.strRefs = [] →
      c ≠ [] →
      (ps.map Prod.fst).Nodup →
      (∀ p ∈ ps, p.1 ≠ keyClassName) →
      c.length < 268435456 →
      (∀ p ∈ ps, p.1.length < 268435456) →
      (∀ p ∈ ps, primOKb p.2 = true) →
      ps.length < 16777216 →
      ps.length < f →
      readAmf3 (f + 2) (pre ++ objWire c ps ++ rest) st none
        = .ok (.ref st.heap.length,
            { st with
                offset := pre.length + (objWire c ps).length,
                heap := st.heap ++ [.obj ((keyClassName, .str c)
                  :: ps.map (fun p => (p.1, primVal p.2)))],
                strRefs := (primChunkSeq (chunkSeq (stringChunk [] c).2
                  (ps.map Prod.fst)).2 (ps.map Prod.snd)).2,
                objRefs := st.objRefs ++ [st.heap.length],
                traitRefs := st.traitRefs
                  ++ [⟨c, ps.map Prod.fst, false, true⟩] }))
    ∧ (∀ (f : Nat) (heap : List HNode) (i : Nat) (props : List (JsStr × HVal))
        (c : JsStr) (ps : List (JsStr × Prim)) (st : WSt),
      heap.get? i = some (.obj props) →
      jsIndexOf st.objRefs i = none →
      st.strRefs = [] →
      jsGetProp props keyClassName = .str c →
      ¬ jsGetProp props keyExternalizable = .bool true →
      (props.map Prod.fst).filter
        (fun k => k ≠ keyClassName ∧ k ≠ keyExternalizable) = ps.map Prod.fst →
      (∀ p ∈ ps, jsGetProp props p.1 = primVal p.2) →
      c.length < 268435456 →
      (∀ p ∈ ps, p.1.length < 268435456) →
      (∀ p ∈ ps, primOKb p.2 = true) →
      ps.length < 16777216 →
      ps.length < f →
      writeAmf3 (f + 2) heap (.ref i) st
        = .ok { st with
            out := st.out ++ objWire c ps,
            objRefs := st.objRefs ++ [i],
            strRefs := (primChunkSeq (chunkSeq (stringChunk [] c).2
              (ps.map Prod.fst)).2 (ps.map Prod.snd)).2 })
    ∧ (∀ (f : Nat) (heap : List HNode) (i : Nat) (props : List (JsStr × HVal))
        (c : JsStr) (st : WSt),
      heap.get? i = some (.obj props) →
      jsIndexOf st.objRefs i = none →
      st.strRefs = [] →
      jsGetProp props keyClassName = .str c →
      jsGetProp props keyExternalizable = .bool true →
      c.length < 268435456 →
      writeAmf3 (f + 2) heap (.ref i) st
        = .ok { st with
            out := st.out ++ [0x0A] ++ u29W 7 ++ (stringChunk [] c).1,
            objRefs := st.objRefs ++ [i],
            strRefs := (stringChunk [] c).2 }) := by
  refine ⟨?_, ?_, ?_⟩
  · intro f c ps pre rest st h1 h2 h3 h4 h5 h6 h7 h8 h9 h10
    exact readAmf3_objWire f c ps pre rest st h1 h2 h3 h4 h5 h6 h7 h8 h9 h10
  · intro f heap i props c ps st h1 h2 h3 h4 h5 h6 h7 h8 h9 h10 h11 h12
    exact writeAmf3_objWire f heap i props c ps st h1 h2 h3 h4 h5 h6 h7 h8 h9 h10 h11 h12
  · intro f heap i props c st h1 h2 h3 h4 h5 h6
    exact writeAmf3_objWireExt f heap i props c st h1 h2 h3 h4 h5 h6

/-- Witness for C10: decoding the wire of class `C` with one sealed
property `A: 7` yields the object with `__className__ = "C"` in front;
encoding an object whose properties include `__className__` and
`__externalizable__ = false` writes only the `A` name; with
`__externalizable__ = true` only the trait header 7 and the class name are
written. -/
theorem c10_className_round_trip_witness :
    readAmf3 4 (objWire [67] [([65], .pint 7)]) (initRSt 0 3) none
      = .ok (.ref 0,
          { initRSt 0 3 with
              offset := (objWire [67] [([65], .pint 7)]).length,
              heap := [.obj [(keyClassName, .str [67]), ([65], .num (.intg 7))]],
              strRefs := (primChunkSeq (chunkSeq (stringChunk [] [67]).2
                [[65]]).2 [.pint 7]).2,
              objRefs := [0],
              traitRefs := [⟨[67], [[65]], false, true⟩] })
    ∧ writeAmf3 4 [.obj [(keyClassName, .str [67]),
        (keyExternalizable, .bool false), ([65], .num (.intg 7))]]
        (.ref 0) initW
      = .ok { initW with
          out := objWire [67] [([65], .pint 7)],
          objRefs := [0],
          strRefs := (primChunkSeq (chunkSeq (stringChunk [] [67]).2
            [[65]]).2 [.pint 7]).2 }
    ∧ writeAmf3 4 [.obj [(keyClassName, .str [67]),
        (keyExternalizable, .bool true), ([65], .num (.intg 7))]]
        (.ref 0) initW
      = .ok { initW with
          out := [0x0A] ++ u29W 7 ++ (stringChunk [] [67]).1,
          objRefs := [0],
          strRefs := (stringChunk [] [67]).2 } := by
  refine ⟨?_, ?_, ?_⟩
  · have h := c10_className_round_trip.1 2 [67] [([65], .pint 7)] [] []
      (initRSt 0 3) (by decide) (by decide) (by decide) (by decide) (by decide)
      (by decide) (by decide) (by decide) (by decide) (by decide)
    rw [show ([] : List Nat) ++ objWire [67] [([65], .pint 7)] ++ []
        = objWire [67] [([65], .pint 7)] from by simp] at h
    rw [h]
    decide
  · have h := c10_className_round_trip.2.1 2 [.obj [(keyClassName, .str [67]),
      (keyExternalizable, .bool false), ([65], .num (.intg 7))]] 0
      [(keyClassName, .str [67]), (keyExternalizable, .bool false),
        ([65], .num (.intg 7))]
      [67] [([65], .pint 7)] initW (by decide) (by decide) (by decide) (by decide)
      (by decide) (by decide) (by decide) (by decide) (by decide) (by decide)
      (by decide) (by decide)
    rw [h]
    decide
  · have h := c10_className_round_trip.2.2 2 [.obj [(keyClassName, .str [67]),
      (keyExternalizable, .bool true), ([65], .num (.intg 7))]] 0
      [(keyClassName, .str [67]), (keyExternalizable, .bool true),
        ([65], .num (.intg 7))]
      [67] initW (by decide) (by decide) (by decide) (by decide) (by decide)
      (by decide)
    rw [h]
    decide

end NodeAmf

